import Mathlib

/-!
Shallow embedding of the variablur numeric core (`src/variablur.js` and the
revision of the same engine kept alongside it), together with theorems that
check the specification's claims about it.

Modelling conventions:
* JavaScript numbers are idealised as exact reals (blur distributor) or exact
  rationals (mask geometry, displacement-field synthesis).
* `throw` is modelled as `Option.none`.
* Where a claim hinges on IEEE-754 special values (division by a zero element
  extent), an explicit value type `JSNum` with `Infinity`/`-Infinity`/`NaN`
  is used; its finite part is exact rational arithmetic.
* `Uint8ClampedArray` writes through a possibly fractional index are dropped
  (JavaScript ignores stores at canonical numeric indices that are not valid
  integer indices), which the buffer model reproduces.
-/

namespace Variablur

/-- `calcBlurPerLayer(totalPx, layers)`: throws when `layers <= 0`
(modelled as `none`), otherwise returns `totalPx / Math.sqrt(layers)`. -/
noncomputable def calcBlurPerLayer (totalPx : ℝ) (layers : ℤ) : Option ℝ :=
  if layers ≤ 0 then none else some (totalPx / Real.sqrt (layers : ℝ))

/-- Sum of squares of a list of reals (the `weights.reduce((sum, w) => sum + w * w, 0)`
accumulator of `exponentialBlurLayers`). -/
noncomputable def sumSq (l : List ℝ) : ℝ := (l.map (fun x => x ^ 2)).sum

/-- `exponentialBlurLayers(totalPx, layers, base)`: throws when `layers <= 0`
(modelled as `none`); otherwise builds `weights = [base^0, …, base^(layers-1)]`,
`scale = totalPx / Math.sqrt(Σ w²)` and returns `weights.map(w => w * scale)`. -/
noncomputable def exponentialBlurLayers (totalPx : ℝ) (layers : ℤ) (base : ℝ) :
    Option (List ℝ) :=
  if layers ≤ 0 then none
  else
    let weights : List ℝ := (List.range layers.toNat).map (fun i => base ^ i)
    let weightSquaresSum : ℝ := sumSq weights
    let scale : ℝ := totalPx / Real.sqrt weightSquaresSum
    some (weights.map (fun w => w * scale))

/-! ### Mask geometry (`calculateMask`), exact-rational model -/

/-- The element passed to `calculateMask`; only `clientWidth`/`clientHeight`
are read by the function. -/
structure ElementBox where
  clientWidth : ℚ
  clientHeight : ℚ

/-- The data of the `linear-gradient(...)` string returned by `calculateMask`:
the gradient axis keyword and the three stop percentages `a`, `c`, `d`. -/
structure MaskDescriptor where
  axis : String
  a : ℚ
  c : ℚ
  d : ℚ
deriving DecidableEq

/-- `const clamp = v => Math.max(0, Math.min(100, v))`. -/
def clamp100 (v : ℚ) : ℚ := max 0 (min 100 v)

/-- `.toLowerCase()`, modelled as lowercasing each character of the string. -/
def toLowerJS (s : String) : String := ⟨s.data.map Char.toLower⟩

/-- `(direction || "bottom").toLowerCase()`: the falsy direction (empty string)
defaults to `"bottom"`, then lowercasing is applied. -/
def jsDir (direction : String) : String :=
  toLowerJS (if direction = "" then "bottom" else direction)

/-- The gradient-axis lookup `{top, left, right, bottom}[dir] || "to bottom"`. -/
def gradientAxis (dir : String) : String :=
  if dir = "top" then "to top"
  else if dir = "left" then "to left"
  else if dir = "right" then "to right"
  else if dir = "bottom" then "to bottom"
  else "to bottom"

/-- `const size = (dir === "left" || dir === "right") ? el.clientWidth : el.clientHeight`. -/
def maskExtent (direction : String) (el : ElementBox) : ℚ :=
  if jsDir direction = "left" ∨ jsDir direction = "right" then el.clientWidth
  else el.clientHeight

/-- `let scale = offset / size; if (invert) scale = 1 - scale`.  (Exact-rational
model; the `size = 0` case, where JavaScript produces an infinity, is treated
separately by the `JSNum` model below.) -/
def maskScale (direction : String) (offset : ℚ) (el : ElementBox) (invert : Bool) : ℚ :=
  if invert then 1 - offset / maskExtent direction el
  else offset / maskExtent direction el

/-- `calculateMask(i, n, direction, offset, el, invert)`, exact-rational model.
Returns the axis and the three stop percentages of the gradient string. -/
def calculateMask (i : ℤ) (n : ℕ) (direction : String) (offset : ℚ)
    (el : ElementBox) (invert : Bool) : MaskDescriptor :=
  let step : ℚ := 100 / (n : ℚ)
  let dir := jsDir direction
  let scale := maskScale direction offset el invert
  let shift := 1 - scale
  ⟨gradientAxis dir,
   clamp100 (((i : ℚ) - 1) * step) * scale + 100 * shift,
   clamp100 (((i : ℚ) + 1) * step) * scale + 100 * shift,
   clamp100 (((i : ℚ) + 2) * step) * scale + 100 * shift⟩

/-- The stop triple described by the spec for a given `scale`
(`clamp(rawStop) * scale + 100 * shift` with `shift = 1 - scale`): used to
compare the code's behaviour against the spec's "treat scale as 0" wording. -/
def maskStopsWithScale (i : ℤ) (n : ℕ) (scale : ℚ) : ℚ × ℚ × ℚ :=
  (clamp100 (((i : ℚ) - 1) * (100 / (n : ℚ))) * scale + 100 * (1 - scale),
   clamp100 (((i : ℚ) + 1) * (100 / (n : ℚ))) * scale + 100 * (1 - scale),
   clamp100 (((i : ℚ) + 2) * (100 / (n : ℚ))) * scale + 100 * (1 - scale))

/-! ### IEEE special values for the zero-extent edge case

JavaScript division never throws: `q / 0` is `Infinity`, `-Infinity` or `NaN`.
`JSNum` models a JavaScript number as an exact rational or one of the three
special values (negative zero is irrelevant here: `clientWidth`/`clientHeight`
are plain `0`). -/

inductive JSNum where
  | num (q : ℚ)
  | inf
  | ninf
  | nan
deriving DecidableEq

namespace JSNum

/-- JavaScript unary minus. -/
def neg : JSNum → JSNum
  | num q => num (-q)
  | inf => ninf
  | ninf => inf
  | nan => nan

/-- JavaScript `+`: `NaN` propagates, `Infinity + -Infinity = NaN`. -/
def add : JSNum → JSNum → JSNum
  | nan, _ => nan
  | _, nan => nan
  | inf, ninf => nan
  | ninf, inf => nan
  | inf, _ => inf
  | _, inf => inf
  | ninf, _ => ninf
  | _, ninf => ninf
  | num a, num b => num (a + b)

/-- JavaScript `-`. -/
def sub (a b : JSNum) : JSNum := add a (neg b)

/-- JavaScript `*`: `NaN` propagates, `0 * ±Infinity = NaN`. -/
def mul : JSNum → JSNum → JSNum
  | nan, _ => nan
  | _, nan => nan
  | num a, num b => num (a * b)
  | num a, inf => if a = 0 then nan else if 0 < a then inf else ninf
  | num a, ninf => if a = 0 then nan else if 0 < a then ninf else inf
  | inf, num b => if b = 0 then nan else if 0 < b then inf else ninf
  | ninf, num b => if b = 0 then nan else if 0 < b then ninf else inf
  | inf, inf => inf
  | inf, ninf => ninf
  | ninf, inf => ninf
  | ninf, ninf => inf

/-- JavaScript `/`: division by (positive) zero yields a signed infinity,
`0 / 0` yields `NaN`. -/
def div : JSNum → JSNum → JSNum
  | nan, _ => nan
  | _, nan => nan
  | num a, num b =>
      if b = 0 then (if a = 0 then nan else if 0 < a then inf else ninf)
      else num (a / b)
  | num _, inf => num 0
  | num _, ninf => num 0
  | inf, num b => if 0 ≤ b then inf else ninf
  | ninf, num b => if 0 ≤ b then ninf else inf
  | inf, inf => nan
  | inf, ninf => nan
  | ninf, inf => nan
  | ninf, ninf => nan

/-- `Math.max` on two arguments: `NaN` if either argument is `NaN`. -/
def jsMax : JSNum → JSNum → JSNum
  | nan, _ => nan
  | _, nan => nan
  | inf, _ => inf
  | _, inf => inf
  | ninf, b => b
  | a, ninf => a
  | num a, num b => num (max a b)

/-- `Math.min` on two arguments: `NaN` if either argument is `NaN`. -/
def jsMin : JSNum → JSNum → JSNum
  | nan, _ => nan
  | _, nan => nan
  | ninf, _ => ninf
  | _, ninf => ninf
  | inf, b => b
  | a, inf => a
  | num a, num b => num (min a b)

end JSNum

/-- `clamp` of `calculateMask` over `JSNum`. -/
def clamp100JS (v : JSNum) : JSNum := JSNum.jsMax (JSNum.num 0) (JSNum.jsMin (JSNum.num 100) v)

/-- `calculateMask` descriptor over `JSNum` stops. -/
structure JSMaskDescriptor where
  axis : String
  a : JSNum
  c : JSNum
  d : JSNum
deriving DecidableEq

/-- `calculateMask` over the `JSNum` model (needed for the `clientHeight = 0`
edge case, where `scale = offset / 0` is a JavaScript infinity or `NaN`). -/
def calculateMaskJS (i : ℤ) (n : ℕ) (direction : String) (offset : JSNum)
    (clientWidth clientHeight : JSNum) (invert : Bool) : JSMaskDescriptor :=
  let step : JSNum := JSNum.div (JSNum.num 100) (JSNum.num (n : ℚ))
  let dir := jsDir direction
  let size := if dir = "left" ∨ dir = "right" then clientWidth else clientHeight
  let scale0 := JSNum.div offset size
  let scale := if invert then JSNum.sub (JSNum.num 1) scale0 else scale0
  let shift := JSNum.sub (JSNum.num 1) scale
  let stop := fun (k : ℤ) =>
    JSNum.add (JSNum.mul (clamp100JS (JSNum.mul (JSNum.num (k : ℚ)) step)) scale)
      (JSNum.mul (JSNum.num 100) shift)
  ⟨gradientAxis dir, stop (i - 1), stop (i + 1), stop (i + 2)⟩

/-! ### The displacement buffer (`RefractionEditor`)

`ImageData.data` is a `Uint8ClampedArray` of length `4 * width * height`,
modelled as a total function `ℤ → ℤ` (out-of-range positions hold the junk
value 0 and are never effectively read or written).  `addTransformation`
iterates `for (let y = dy; y < dy + dh; y++)` / `for (let x = dx; ...)` with
possibly fractional rectangle parameters, and stores through
`pixelIndex = (y * width + x) * 4`; a store is effective only when that index
is an actual integer in range, exactly as JavaScript typed arrays behave. -/

/-- Linear pixel store of an `ImageData`. -/
def Buffer : Type := ℤ → ℤ

/-- The buffer built by the `RefractionEditor` constructor: a fresh zeroed
`ImageData(width, height)` whose loop then writes `127, 127, 127, 255` at
`i, i+1, i+2, i+3` for every `i = 0, 4, 8, …` below `4 * width * height`. -/
def initData (w h : ℤ) : Buffer := fun n =>
  if 0 ≤ n ∧ n < 4 * w * h then (if n % 4 = 3 then 255 else 127) else 0

/-- `Math.round` (round half towards positive infinity). -/
def roundJS (q : ℚ) : ℤ := ⌊q + 1 / 2⌋

/-- `Math.max(0, Math.min(255, z))`. -/
def clamp255 (z : ℤ) : ℤ := max 0 (min 255 z)

/-- `Math.max(0, Math.min(1, g))`. -/
def clamp01 (q : ℚ) : ℚ := max 0 (min 1 q)

/-- The `switch (direction.toLowerCase())` computing the gradient segment
(`up` and `top` share a case; every other string falls to the `down` default). -/
def gradSeg (direction : String) (x y dx dy dw dh : ℚ) : ℚ :=
  let dir := toLowerJS direction
  if dir = "down" then (y - dy) / dh
  else if dir = "up" ∨ dir = "top" then (dh - (y - dy)) / dh
  else if dir = "right" then (x - dx) / dw
  else if dir = "left" then (dw - (x - dx)) / dw
  else (y - dy) / dh

/-- One iteration of the `addTransformation` pixel loop at loop coordinates
`(x, y)`: skip when outside the image bounds, otherwise add
`127 * vx(x,y,dw,dh) * easing(clamp(g))` to `data[pixelIndex]` and
`127 * vy(x,y,dw,dh) * easing(clamp(g))` to `data[pixelIndex + 2]`, each store
rounded, clamped to `[0,255]`, and dropped unless the store index is an
integer within the array. -/
def writePixel (w h : ℤ) (vx vy : ℚ → ℚ → ℚ → ℚ → ℚ) (direction : String)
    (dx dy dw dh : ℚ) (easing : ℚ → ℚ) (b : Buffer) (x y : ℚ) : Buffer :=
  if x < 0 ∨ y < 0 ∨ (w : ℚ) ≤ x ∨ (h : ℚ) ≤ y then b
  else
    let g : ℚ := clamp01 (gradSeg direction x y dx dy dw dh)
    let idx : ℚ := (y * (w : ℚ) + x) * 4
    let vxV : ℚ := vx x y dw dh
    let vyV : ℚ := vy x y dw dh
    let b1 : Buffer := fun n =>
      if (n : ℚ) = idx ∧ 0 ≤ n ∧ n < 4 * w * h then
        clamp255 (roundJS ((b n : ℚ) + 127 * vxV * easing g))
      else b n
    fun n =>
      if (n : ℚ) = idx + 2 ∧ 0 ≤ n ∧ n < 4 * w * h then
        clamp255 (roundJS ((b1 n : ℚ) + 127 * vyV * easing g))
      else b1 n

/-- Number of iterations of `for (let v = start; v < start + d; v++)`. -/
def iterCount (d : ℚ) : ℕ := (⌈d⌉).toNat

/-- The loop coordinates `(dx + i, dy + j)` visited by `addTransformation`,
row-major as in the nested `for` loops. -/
def rectCoords (dx dy dw dh : ℚ) : List (ℚ × ℚ) :=
  (List.range (iterCount dh)).flatMap fun (j : ℕ) =>
    (List.range (iterCount dw)).map fun (i : ℕ) => (dx + (i : ℚ), dy + (j : ℚ))

/-- Run the pixel loop over a list of loop coordinates (left fold, as the
nested `for` loops execute). -/
def writeFold (w h : ℤ) (vx vy : ℚ → ℚ → ℚ → ℚ → ℚ) (direction : String)
    (dx dy dw dh : ℚ) (easing : ℚ → ℚ) (b : Buffer) : List (ℚ × ℚ) → Buffer :=
  fun l => l.foldl
    (fun acc p => writePixel w h vx vy direction dx dy dw dh easing acc p.1 p.2) b

/-- `RefractionEditor.addTransformation(vx, vy, direction, dx, dy, dw, dh, easing)`.
The scalar-or-function `vx`/`vy` arguments are modelled uniformly as functions
of `(x, y, dw, dh)` (a scalar is a constant function, see `constF`). -/
def addTransformation (w h : ℤ) (vx vy : ℚ → ℚ → ℚ → ℚ → ℚ) (direction : String)
    (dx dy dw dh : ℚ) (easing : ℚ → ℚ) (b : Buffer) : Buffer :=
  writeFold w h vx vy direction dx dy dw dh easing b (rectCoords dx dy dw dh)

/-- A scalar displacement argument. -/
def constF (v : ℚ) : ℚ → ℚ → ℚ → ℚ → ℚ := fun _ _ _ _ => v

/-- The easing `(x) => Math.pow(x, 1)`. -/
def pow1 : ℚ → ℚ := fun x => x ^ (1 : ℕ)

/-- The easing `(x) => Math.pow(x, 2)`. -/
def pow2 : ℚ → ℚ := fun x => x ^ (2 : ℕ)

/-- An arbitrary `addTransformation` call: its eight arguments. -/
structure EdgeTransformation where
  vx : ℚ → ℚ → ℚ → ℚ → ℚ
  vy : ℚ → ℚ → ℚ → ℚ → ℚ
  direction : String
  dx : ℚ
  dy : ℚ
  dw : ℚ
  dh : ℚ
  easing : ℚ → ℚ

/-- Apply one recorded `addTransformation` call. -/
def applyTf (w h : ℤ) (b : Buffer) (t : EdgeTransformation) : Buffer :=
  addTransformation w h t.vx t.vy t.direction t.dx t.dy t.dw t.dh t.easing b

/-- Apply a sequence of `addTransformation` calls in order. -/
def applyAll (w h : ℤ) (ts : List EdgeTransformation) (b : Buffer) : Buffer :=
  ts.foldl (applyTf w h) b

/-- Channel `c` of pixel `(x, y)` of a buffer of width `w`:
`data[(y * width + x) * 4 + c]`. -/
def pixelChan (b : Buffer) (w x y c : ℤ) : ℤ := b ((y * w + x) * 4 + c)

/-- `dx <= x < dx + dw && dy <= y < dy + dh`: the target rectangle of an
`addTransformation` call. -/
def inRect (dx dy dw dh x y : ℚ) : Prop :=
  dx ≤ x ∧ x < dx + dw ∧ dy ≤ y ∧ y < dy + dh

instance (dx dy dw dh x y : ℚ) : Decidable (inRect dx dy dw dh x y) := by
  unfold inRect; infer_instance

/-- `calculateRefractionMap(refraction, width, height, radius)` from
`src/variablur.js`: halves `refraction`, builds a fresh buffer, then applies
one linear-eased edge transformation per edge, the vertical ones over strips
of thickness `height / 2` and the horizontal ones over strips of thickness
`width / 2`.  `radius` is stored on the editor but unused by these passes. -/
def calculateRefractionMap (refraction : ℚ) (w h : ℤ) (_radius : ℚ) : Buffer :=
  let r := refraction / 2
  let b0 := initData w h
  let off1 : ℚ := (h : ℚ) / 2
  let b1 := addTransformation w h (constF 0) (constF (1 * r)) "top" 0 0 (w : ℚ) off1 pow1 b0
  let b2 := addTransformation w h (constF 0) (constF (-1 * r)) "bottom" 0 ((h : ℚ) - off1) (w : ℚ) off1 pow1 b1
  let off2 : ℚ := (w : ℚ) / 2
  let b3 := addTransformation w h (constF (1 * r)) (constF 0) "left" 0 0 off2 (h : ℚ) pow1 b2
  addTransformation w h (constF (-1 * r)) (constF 0) "right" ((w : ℚ) - off2) 0 off2 (h : ℚ) pow1 b3

/-- `calculateGlassRefractionMap(refraction, offset, width, height, radius)`
from the sibling revision of the engine: halves `offset` and `refraction`,
applies a linear-eased edge pass per edge over strips of thickness `offset/2`,
then a quadratic-eased second pass per edge (of thickness `offset`, damping
factor `.75`) whose displacement depends on distance from the edge centre. -/
def calculateGlassRefractionMap (refraction offset : ℚ) (w h : ℤ) (_radius : ℚ) : Buffer :=
  let off := offset / 2
  let r := refraction / 2
  let b0 := initData w h
  let b1 := addTransformation w h (constF 0) (constF (1 * r)) "top" 0 0 (w : ℚ) off pow1 b0
  let b2 := addTransformation w h (constF 0) (constF (-1 * r)) "bottom" 0 ((h : ℚ) - off) (w : ℚ) off pow1 b1
  let b3 := addTransformation w h (constF (1 * r)) (constF 0) "left" 0 0 off (h : ℚ) pow1 b2
  let b4 := addTransformation w h (constF (-1 * r)) (constF 0) "right" ((w : ℚ) - off) 0 off (h : ℚ) pow1 b3
  let vx2 : ℚ → ℚ → ℚ → ℚ → ℚ := fun x _ w' _ => -(x - w' / 2) / (w' / 2) * r * (3 / 4)
  let b5 := addTransformation w h vx2 (constF 0) "top" 0 0 (w : ℚ) (off * 2) pow2 b4
  let b6 := addTransformation w h vx2 (constF 0) "bottom" 0 ((h : ℚ) - off * 2) (w : ℚ) (off * 2) pow2 b5
  let vy2 : ℚ → ℚ → ℚ → ℚ → ℚ := fun _ y _ h' => -(y - h' / 2) / (h' / 2) * r * (3 / 4)
  let b7 := addTransformation w h (constF 0) vy2 "left" 0 0 (off * 2) (h : ℚ) pow2 b6
  addTransformation w h (constF 0) vy2 "right" ((w : ℚ) - off * 2) 0 (off * 2) (h : ℚ) pow2 b7

/-! ### Arithmetic helper lemmas -/

theorem clamp255_nonneg (z : ℤ) : 0 ≤ clamp255 z := le_max_left 0 _

theorem clamp255_le_255 (z : ℤ) : clamp255 z ≤ 255 := by
  unfold clamp255
  exact max_le (by norm_num) (min_le_left _ _)

theorem clamp255_eq_self {z : ℤ} (h0 : 0 ≤ z) (h255 : z ≤ 255) : clamp255 z = z := by
  unfold clamp255
  rw [min_eq_right h255, max_eq_right h0]

theorem le_clamp255 {k z : ℤ} (hk : k ≤ 255) (hz : k ≤ z) : k ≤ clamp255 z := by
  unfold clamp255
  exact le_max_of_le_right (le_min hk hz)

theorem roundJS_intCast (z : ℤ) : roundJS (z : ℚ) = z := by
  unfold roundJS
  rw [add_comm]
  rw [Int.floor_add_int]
  norm_num

theorem roundJS_mono {a b : ℚ} (h : a ≤ b) : roundJS a ≤ roundJS b :=
  Int.floor_le_floor (by linarith)

theorem clamp01_nonneg (q : ℚ) : 0 ≤ clamp01 q := le_max_left 0 _

theorem clamp01_le_one (q : ℚ) : clamp01 q ≤ 1 := by
  unfold clamp01
  exact max_le (by norm_num) (min_le_left _ _)

theorem clamp01_eq_self {q : ℚ} (h0 : 0 ≤ q) (h1 : q ≤ 1) : clamp01 q = q := by
  unfold clamp01
  rw [min_eq_right h1, max_eq_right h0]

theorem clamp100_nonneg (v : ℚ) : 0 ≤ clamp100 v := le_max_left 0 _

theorem clamp100_le_100 (v : ℚ) : clamp100 v ≤ 100 := by
  unfold clamp100
  exact max_le (by norm_num) (min_le_left _ _)

theorem clamp100_mono {a b : ℚ} (h : a ≤ b) : clamp100 a ≤ clamp100 b := by
  unfold clamp100
  exact max_le_max le_rfl (min_le_min le_rfl h)

/-! ### Pixel-loop lemmas -/

section PixelLoop

variable (w h : ℤ) (vx vy : ℚ → ℚ → ℚ → ℚ → ℚ) (direction : String)
variable (dx dy dw dh : ℚ) (easing : ℚ → ℚ)

theorem writePixel_untouched (b : Buffer) (x y : ℚ) (n : ℤ)
    (h0 : (n : ℚ) ≠ (y * (w : ℚ) + x) * 4) (h2 : (n : ℚ) ≠ (y * (w : ℚ) + x) * 4 + 2) :
    writePixel w h vx vy direction dx dy dw dh easing b x y n = b n := by
  unfold writePixel
  by_cases hb : x < 0 ∨ y < 0 ∨ (w : ℚ) ≤ x ∨ (h : ℚ) ≤ y
  · rw [if_pos hb]
  · rw [if_neg hb]
    have hc2 : ¬ ((n : ℚ) = (y * (w : ℚ) + x) * 4 + 2 ∧ 0 ≤ n ∧ n < 4 * w * h) :=
      fun hc => h2 hc.1
    have hc0 : ¬ ((n : ℚ) = (y * (w : ℚ) + x) * 4 ∧ 0 ≤ n ∧ n < 4 * w * h) :=
      fun hc => h0 hc.1
    simp only [if_neg hc2, if_neg hc0]

theorem writePixel_read_only (acc1 acc2 : Buffer) (x y : ℚ) (n : ℤ)
    (hn : acc1 n = acc2 n) :
    writePixel w h vx vy direction dx dy dw dh easing acc1 x y n =
      writePixel w h vx vy direction dx dy dw dh easing acc2 x y n := by
  unfold writePixel
  by_cases hb : x < 0 ∨ y < 0 ∨ (w : ℚ) ≤ x ∨ (h : ℚ) ≤ y
  · rw [if_pos hb, if_pos hb]; exact hn
  · rw [if_neg hb, if_neg hb]
    simp only [hn]

theorem writePixel_val0 (b : Buffer) (x y : ℚ) (n : ℤ)
    (hb : ¬ (x < 0 ∨ y < 0 ∨ (w : ℚ) ≤ x ∨ (h : ℚ) ≤ y))
    (hn : (n : ℚ) = (y * (w : ℚ) + x) * 4) (hn0 : 0 ≤ n) (hnlt : n < 4 * w * h) :
    writePixel w h vx vy direction dx dy dw dh easing b x y n =
      clamp255 (roundJS ((b n : ℚ) + 127 * vx x y dw dh *
        easing (clamp01 (gradSeg direction x y dx dy dw dh)))) := by
  unfold writePixel
  rw [if_neg hb]
  have hc2 : ¬ ((n : ℚ) = (y * (w : ℚ) + x) * 4 + 2 ∧ 0 ≤ n ∧ n < 4 * w * h) := by
    intro hc
    rw [hn] at hc
    have := hc.1
    linarith
  have hC : (n : ℚ) = (y * (w : ℚ) + x) * 4 ∧ 0 ≤ n ∧ n < 4 * w * h := ⟨hn, hn0, hnlt⟩
  simp only [if_neg hc2, if_pos hC]

theorem writePixel_val2 (b : Buffer) (x y : ℚ) (n : ℤ)
    (hb : ¬ (x < 0 ∨ y < 0 ∨ (w : ℚ) ≤ x ∨ (h : ℚ) ≤ y))
    (hn : (n : ℚ) = (y * (w : ℚ) + x) * 4 + 2) (hn0 : 0 ≤ n) (hnlt : n < 4 * w * h) :
    writePixel w h vx vy direction dx dy dw dh easing b x y n =
      clamp255 (roundJS ((b n : ℚ) + 127 * vy x y dw dh *
        easing (clamp01 (gradSeg direction x y dx dy dw dh)))) := by
  unfold writePixel
  rw [if_neg hb]
  have hc0 : ¬ ((n : ℚ) = (y * (w : ℚ) + x) * 4 ∧ 0 ≤ n ∧ n < 4 * w * h) := by
    intro hc
    rw [hn] at hc
    have := hc.1
    linarith
  have hC : (n : ℚ) = (y * (w : ℚ) + x) * 4 + 2 ∧ 0 ≤ n ∧ n < 4 * w * h := ⟨hn, hn0, hnlt⟩
  simp only [if_neg hc0, if_pos hC]

theorem writePixel_range (b : Buffer) (x y : ℚ) (n : ℤ)
    (hb : 0 ≤ b n ∧ b n ≤ 255) :
    0 ≤ writePixel w h vx vy direction dx dy dw dh easing b x y n ∧
      writePixel w h vx vy direction dx dy dw dh easing b x y n ≤ 255 := by
  unfold writePixel
  by_cases hbnd : x < 0 ∨ y < 0 ∨ (w : ℚ) ≤ x ∨ (h : ℚ) ≤ y
  · rw [if_pos hbnd]; exact hb
  · rw [if_neg hbnd]
    simp only []
    split_ifs
    · exact ⟨clamp255_nonneg _, clamp255_le_255 _⟩
    · exact ⟨clamp255_nonneg _, clamp255_le_255 _⟩
    · exact ⟨clamp255_nonneg _, clamp255_le_255 _⟩
    · exact hb

theorem writeFold_nil (b : Buffer) :
    writeFold w h vx vy direction dx dy dw dh easing b [] = b := rfl

theorem writeFold_cons (b : Buffer) (p : ℚ × ℚ) (l : List (ℚ × ℚ)) :
    writeFold w h vx vy direction dx dy dw dh easing b (p :: l) =
      writeFold w h vx vy direction dx dy dw dh easing
        (writePixel w h vx vy direction dx dy dw dh easing b p.1 p.2) l := rfl

theorem writeFold_untouched (l : List (ℚ × ℚ)) (b : Buffer) (n : ℤ)
    (hl : ∀ p ∈ l, ∀ acc : Buffer,
      writePixel w h vx vy direction dx dy dw dh easing acc p.1 p.2 n = acc n) :
    writeFold w h vx vy direction dx dy dw dh easing b l n = b n := by
  induction l generalizing b with
  | nil => rfl
  | cons p t ih =>
    rw [writeFold_cons]
    rw [ih _ (fun q hq => hl q (List.mem_cons_of_mem _ hq))]
    exact hl p (List.mem_cons_self _ _) b

theorem writeFold_range (l : List (ℚ × ℚ)) (b : Buffer) (n : ℤ)
    (hb : 0 ≤ b n ∧ b n ≤ 255) :
    0 ≤ writeFold w h vx vy direction dx dy dw dh easing b l n ∧
      writeFold w h vx vy direction dx dy dw dh easing b l n ≤ 255 := by
  induction l generalizing b with
  | nil => exact hb
  | cons p t ih =>
    rw [writeFold_cons]
    exact ih _ (writePixel_range w h vx vy direction dx dy dw dh easing b p.1 p.2 n hb)

theorem writeFold_eval (l : List (ℚ × ℚ)) (b : Buffer) (x0 y0 : ℚ) (n : ℤ)
    (hnd : l.Nodup)
    (hl : ∀ p ∈ l, p ≠ (x0, y0) → ∀ acc : Buffer,
      writePixel w h vx vy direction dx dy dw dh easing acc p.1 p.2 n = acc n) :
    writeFold w h vx vy direction dx dy dw dh easing b l n =
      if (x0, y0) ∈ l then writePixel w h vx vy direction dx dy dw dh easing b x0 y0 n
      else b n := by
  induction l generalizing b with
  | nil => simp [writeFold_nil]
  | cons p t ih =>
    rw [writeFold_cons]
    by_cases hp : p = (x0, y0)
    · have hnin : (x0, y0) ∉ t := by
        intro hm
        exact (List.nodup_cons.mp hnd).1 (by rwa [hp])
      rw [writeFold_untouched w h vx vy direction dx dy dw dh easing t _ n
        (fun q hq => hl q (List.mem_cons_of_mem _ hq) (fun hqe => hnin (hqe ▸ hq)))]
      have hp1 : p.1 = x0 := by rw [hp]
      have hp2 : p.2 = y0 := by rw [hp]
      rw [hp1, hp2, if_pos (List.mem_cons.mpr (Or.inl hp.symm))]
    · have hbn : writePixel w h vx vy direction dx dy dw dh easing b p.1 p.2 n = b n :=
        hl p (List.mem_cons_self _ _) hp b
      rw [ih _ (List.nodup_cons.mp hnd).2 (fun q hq => hl q (List.mem_cons_of_mem _ hq))]
      by_cases hm : (x0, y0) ∈ t
      · rw [if_pos hm, if_pos (List.mem_cons_of_mem _ hm)]
        exact writePixel_read_only w h vx vy direction dx dy dw dh easing _ _ x0 y0 n hbn
      · rw [if_neg hm, hbn, if_neg (by
          intro hc
          rcases List.mem_cons.mp hc with hc | hc
          · exact hp hc.symm
          · exact hm hc)]

theorem writePixel_oob (b : Buffer) (x y : ℚ) (n : ℤ)
    (hb : x < 0 ∨ y < 0 ∨ (w : ℚ) ≤ x ∨ (h : ℚ) ≤ y) :
    writePixel w h vx vy direction dx dy dw dh easing b x y n = b n := by
  unfold writePixel
  rw [if_pos hb]

end PixelLoop

/-! ### Integer-rectangle characterisation of `addTransformation` -/

theorem rectCoords_int_mem (dx dy dw dh : ℤ) (p : ℚ × ℚ) :
    p ∈ rectCoords (dx : ℚ) (dy : ℚ) (dw : ℚ) (dh : ℚ) ↔
      ∃ a b : ℤ, p = ((a : ℚ), (b : ℚ)) ∧ dx ≤ a ∧ a < dx + dw ∧ dy ≤ b ∧ b < dy + dh := by
  unfold rectCoords iterCount
  rw [Int.ceil_intCast, Int.ceil_intCast]
  simp only [List.mem_flatMap, List.mem_map, List.mem_range]
  constructor
  · rintro ⟨j, hj, i, hi, rfl⟩
    refine ⟨dx + i, dy + j, ?_, by omega, by omega, by omega, by omega⟩
    simp only [Prod.mk.injEq]
    constructor <;> push_cast <;> ring
  · rintro ⟨a, b, rfl, h1, h2, h3, h4⟩
    refine ⟨(b - dy).toNat, by omega, (a - dx).toNat, by omega, ?_⟩
    simp only [Prod.mk.injEq]
    have hA : (((a - dx).toNat : ℤ) : ℚ) = ((a - dx : ℤ) : ℚ) := by
      rw [Int.toNat_of_nonneg (by omega)]
    have hB : (((b - dy).toNat : ℤ) : ℚ) = ((b - dy : ℤ) : ℚ) := by
      rw [Int.toNat_of_nonneg (by omega)]
    push_cast at hA hB
    constructor
    · rw [hA]; ring
    · rw [hB]; ring

theorem rectCoords_int_mem_pt (dx dy dw dh x y : ℤ) :
    ((x : ℚ), (y : ℚ)) ∈ rectCoords (dx : ℚ) (dy : ℚ) (dw : ℚ) (dh : ℚ) ↔
      dx ≤ x ∧ x < dx + dw ∧ dy ≤ y ∧ y < dy + dh := by
  rw [rectCoords_int_mem]
  constructor
  · rintro ⟨a, b, heq, h1, h2, h3, h4⟩
    have ha : (x : ℚ) = (a : ℚ) := congrArg Prod.fst heq
    have hb : (y : ℚ) = (b : ℚ) := congrArg Prod.snd heq
    have ha' : x = a := by exact_mod_cast ha
    have hb' : y = b := by exact_mod_cast hb
    subst ha'
    subst hb'
    exact ⟨h1, h2, h3, h4⟩
  · rintro ⟨h1, h2, h3, h4⟩
    exact ⟨x, y, rfl, h1, h2, h3, h4⟩

theorem rectCoords_int_nodup (dx dy dw dh : ℤ) :
    (rectCoords (dx : ℚ) (dy : ℚ) (dw : ℚ) (dh : ℚ)).Nodup := by
  unfold rectCoords iterCount
  refine List.nodup_flatMap.mpr ⟨?_, ?_⟩
  · intro j _
    refine (List.nodup_range _).map ?_
    intro i1 i2 he
    have h1 : (dx : ℚ) + (i1 : ℚ) = (dx : ℚ) + (i2 : ℚ) := congrArg Prod.fst he
    have : (i1 : ℚ) = (i2 : ℚ) := by linarith
    exact_mod_cast this
  · refine List.Pairwise.imp ?_ (List.nodup_range _)
    intro j1 j2 hne p hp1 hp2
    simp only [List.mem_map, List.mem_range] at hp1 hp2
    obtain ⟨i1, _, he1⟩ := hp1
    obtain ⟨i2, _, he2⟩ := hp2
    have h1 : (dy : ℚ) + (j1 : ℚ) = p.2 := congrArg Prod.snd he1
    have h2 : (dy : ℚ) + (j2 : ℚ) = p.2 := congrArg Prod.snd he2
    have : (j1 : ℚ) = (j2 : ℚ) := by linarith
    exact hne (by exact_mod_cast this)

theorem pixel_index_inj {w x a y b : ℤ} (hx0 : 0 ≤ x) (hxw : x < w)
    (ha0 : 0 ≤ a) (haw : a < w) (he : y * w + x = b * w + a) : x = a ∧ y = b := by
  have hw : 0 < w := lt_of_le_of_lt hx0 hxw
  have h1 : (y - b) * w = a - x := by
    rw [sub_mul]
    linarith
  by_cases hyb : y = b
  · subst hyb
    constructor
    · linarith
    · rfl
  · exfalso
    have habs : |a - x| < w := abs_lt.mpr ⟨by linarith, by linarith⟩
    have hone : 1 ≤ |y - b| := Int.one_le_abs (sub_ne_zero.mpr hyb)
    have hge : w ≤ |y - b| * w := (le_mul_iff_one_le_left hw).mpr hone
    rw [← abs_of_pos hw, ← abs_mul, h1, abs_of_pos hw] at hge
    linarith

theorem rect_step_untouched (w h : ℤ) (vx vy : ℚ → ℚ → ℚ → ℚ → ℚ) (direction : String)
    (dx dy dw dh : ℤ) (easing : ℚ → ℚ) (x y c : ℤ)
    (hx0 : 0 ≤ x) (hxw : x < w) (hy0 : 0 ≤ y) (hyh : y < h) (hc0 : 0 ≤ c) (hc4 : c < 4)
    (p : ℚ × ℚ) (hp : p ∈ rectCoords (dx : ℚ) (dy : ℚ) (dw : ℚ) (dh : ℚ))
    (hne : p ≠ ((x : ℚ), (y : ℚ)) ∨ (c ≠ 0 ∧ c ≠ 2)) (acc : Buffer) :
    writePixel w h vx vy direction (dx : ℚ) (dy : ℚ) (dw : ℚ) (dh : ℚ) easing acc p.1 p.2
      ((y * w + x) * 4 + c) = acc ((y * w + x) * 4 + c) := by
  obtain ⟨a, bb, hpe, _, _, _, _⟩ := (rectCoords_int_mem dx dy dw dh p).mp hp
  subst hpe
  by_cases hbnd : (a : ℚ) < 0 ∨ (bb : ℚ) < 0 ∨ (w : ℚ) ≤ (a : ℚ) ∨ (h : ℚ) ≤ (bb : ℚ)
  · exact writePixel_oob w h vx vy direction _ _ _ _ easing acc _ _ _ hbnd
  · push_neg at hbnd
    obtain ⟨hA0, hB0, hAw, hBh⟩ := hbnd
    have ha0 : 0 ≤ a := by exact_mod_cast hA0
    have hb0 : 0 ≤ bb := by exact_mod_cast hB0
    have haw : a < w := by exact_mod_cast hAw
    have hbh : bb < h := by exact_mod_cast hBh
    apply writePixel_untouched
    · intro hEq
      have hEq' : (((y * w + x) * 4 + c : ℤ) : ℚ) = ((bb : ℚ) * (w : ℚ) + (a : ℚ)) * 4 := hEq
      have hZ : (y * w + x) * 4 + c = (bb * w + a) * 4 := by exact_mod_cast hEq'
      obtain ⟨K, hKdef⟩ : ∃ K : ℤ, (bb * w + a) - (y * w + x) = K := ⟨_, rfl⟩
      have hcK : c = 4 * K := by rw [← hKdef]; linear_combination hZ
      have hK0 : K = 0 := by omega
      have hcz : c = 0 := by omega
      have hqe : y * w + x = bb * w + a := by
        rw [hK0] at hKdef
        linarith
      obtain ⟨hxa, hyb⟩ := pixel_index_inj hx0 hxw ha0 haw hqe
      rcases hne with hne | hne
      · exact hne (by rw [show a = x from hxa.symm, show bb = y from hyb.symm])
      · exact hne.1 hcz
    · intro hEq
      have hEq' : (((y * w + x) * 4 + c : ℤ) : ℚ) = ((bb : ℚ) * (w : ℚ) + (a : ℚ)) * 4 + 2 := hEq
      have hZ : (y * w + x) * 4 + c = (bb * w + a) * 4 + 2 := by exact_mod_cast hEq'
      obtain ⟨K, hKdef⟩ : ∃ K : ℤ, (bb * w + a) - (y * w + x) = K := ⟨_, rfl⟩
      have hcK : c = 4 * K + 2 := by rw [← hKdef]; linear_combination hZ
      have hK0 : K = 0 := by omega
      have hc2 : c = 2 := by omega
      have hqe : y * w + x = bb * w + a := by
        rw [hK0] at hKdef
        linarith
      obtain ⟨hxa, hyb⟩ := pixel_index_inj hx0 hxw ha0 haw hqe
      rcases hne with hne | hne
      · exact hne (by rw [show a = x from hxa.symm, show bb = y from hyb.symm])
      · exact hne.2 hc2

/-- Closed form of `addTransformation` with an integer rectangle, evaluated at
channel `c` of the in-bounds pixel `(x, y)`: inside the target rectangle the
`R` (c = 0) and `B` (c = 2) channels receive the displacement write, all other
positions are untouched. -/
theorem addTransformation_int_apply (w h : ℤ) (vx vy : ℚ → ℚ → ℚ → ℚ → ℚ)
    (direction : String) (dx dy dw dh : ℤ) (easing : ℚ → ℚ) (b : Buffer) (x y c : ℤ)
    (hx0 : 0 ≤ x) (hxw : x < w) (hy0 : 0 ≤ y) (hyh : y < h) (hc0 : 0 ≤ c) (hc4 : c < 4) :
    addTransformation w h vx vy direction (dx : ℚ) (dy : ℚ) (dw : ℚ) (dh : ℚ) easing b
        ((y * w + x) * 4 + c) =
      if dx ≤ x ∧ x < dx + dw ∧ dy ≤ y ∧ y < dy + dh then
        if c = 0 then
          clamp255 (roundJS ((b ((y * w + x) * 4) : ℚ) +
            127 * vx (x : ℚ) (y : ℚ) (dw : ℚ) (dh : ℚ) *
            easing (clamp01 (gradSeg direction (x : ℚ) (y : ℚ) (dx : ℚ) (dy : ℚ) (dw : ℚ) (dh : ℚ)))))
        else if c = 2 then
          clamp255 (roundJS ((b ((y * w + x) * 4 + 2) : ℚ) +
            127 * vy (x : ℚ) (y : ℚ) (dw : ℚ) (dh : ℚ) *
            easing (clamp01 (gradSeg direction (x : ℚ) (y : ℚ) (dx : ℚ) (dy : ℚ) (dw : ℚ) (dh : ℚ)))))
        else b ((y * w + x) * 4 + c)
      else b ((y * w + x) * 4 + c) := by
  have hw : 0 < w := lt_of_le_of_lt hx0 hxw
  have hh : 0 < h := lt_of_le_of_lt hy0 hyh
  have hq0 : 0 ≤ y * w + x := add_nonneg (mul_nonneg hy0 hw.le) hx0
  have hqlt : y * w + x < w * h := by nlinarith
  have hn0 : 0 ≤ (y * w + x) * 4 + c := by linarith
  have hnlt : (y * w + x) * 4 + c < 4 * w * h := by nlinarith
  have hbnd : ¬ ((x : ℚ) < 0 ∨ (y : ℚ) < 0 ∨ (w : ℚ) ≤ (x : ℚ) ∨ (h : ℚ) ≤ (y : ℚ)) := by
    push_neg
    refine ⟨by exact_mod_cast hx0, by exact_mod_cast hy0, by exact_mod_cast hxw,
      by exact_mod_cast hyh⟩
  unfold addTransformation
  by_cases hcm : c = 0 ∨ c = 2
  · rw [writeFold_eval w h vx vy direction (dx : ℚ) (dy : ℚ) (dw : ℚ) (dh : ℚ) easing
      (rectCoords (dx : ℚ) (dy : ℚ) (dw : ℚ) (dh : ℚ)) b (x : ℚ) (y : ℚ)
      ((y * w + x) * 4 + c) (rectCoords_int_nodup dx dy dw dh)
      (fun p hp hpne acc => rect_step_untouched w h vx vy direction dx dy dw dh easing
        x y c hx0 hxw hy0 hyh hc0 hc4 p hp (Or.inl hpne) acc)]
    simp only [rectCoords_int_mem_pt]
    by_cases hin : dx ≤ x ∧ x < dx + dw ∧ dy ≤ y ∧ y < dy + dh
    · rw [if_pos hin, if_pos hin]
      rcases hcm with hc | hc
      · subst hc
        rw [if_pos rfl]
        rw [writePixel_val0 w h vx vy direction (dx : ℚ) (dy : ℚ) (dw : ℚ) (dh : ℚ) easing
          b (x : ℚ) (y : ℚ) ((y * w + x) * 4 + 0) hbnd (by push_cast; ring)
          hn0 hnlt]
        rw [show (y * w + x) * 4 + 0 = (y * w + x) * 4 from add_zero _]
      · subst hc
        rw [if_neg (by omega), if_pos rfl]
        rw [writePixel_val2 w h vx vy direction (dx : ℚ) (dy : ℚ) (dw : ℚ) (dh : ℚ) easing
          b (x : ℚ) (y : ℚ) ((y * w + x) * 4 + 2) hbnd (by push_cast; ring)
          hn0 hnlt]
    · rw [if_neg hin, if_neg hin]
  · rw [writeFold_untouched w h vx vy direction (dx : ℚ) (dy : ℚ) (dw : ℚ) (dh : ℚ) easing
      (rectCoords (dx : ℚ) (dy : ℚ) (dw : ℚ) (dh : ℚ)) b ((y * w + x) * 4 + c)
      (fun p hp acc => rect_step_untouched w h vx vy direction dx dy dw dh easing
        x y c hx0 hxw hy0 hyh hc0 hc4 p hp (Or.inr ⟨by omega, by omega⟩) acc)]
    split_ifs with h1 h2 h3
    · exact absurd (Or.inl h2) hcm
    · exact absurd (Or.inr h3) hcm
    · rfl
    · rfl

/-! ### Claim theorems: blur distributor -/

/-- C1: for every `layerCount ∈ [1, 64]` and `totalBlur ≥ 0`, the sequence
returned by `exponentialBlurLayers(totalBlur, layerCount, base = 2)` satisfies
the root-sum-square invariant: the square root of the sum of the squares of
its elements equals `totalBlur` exactly (over the reals). -/
theorem exponentialBlurLayers_rss (layers : ℤ) (h1 : 1 ≤ layers) (h64 : layers ≤ 64)
    (totalPx : ℝ) (ht : 0 ≤ totalPx) :
    ∃ l, exponentialBlurLayers totalPx layers 2 = some l ∧
      Real.sqrt (sumSq l) = totalPx := by
  have hpos : ¬ layers ≤ 0 := by omega
  refine ⟨_, by rw [exponentialBlurLayers, if_neg hpos], ?_⟩
  have hm : 0 < layers.toNat := by omega
  set weights : List ℝ := (List.range layers.toNat).map (fun i => (2 : ℝ) ^ i) with hwdef
  set W : ℝ := sumSq weights with hWdef
  have hW1 : (1 : ℝ) ≤ W := by
    have hmem : (1 : ℝ) ∈ weights.map (fun x => x ^ 2) := by
      rw [hwdef, List.map_map]
      refine List.mem_map.mpr ⟨0, List.mem_range.mpr hm, by norm_num⟩
    have hnn : ∀ x ∈ weights.map (fun x => x ^ 2), (0 : ℝ) ≤ x := by
      intro x hx
      obtain ⟨wgt, _, rfl⟩ := List.mem_map.mp hx
      positivity
    exact List.single_le_sum hnn 1 hmem
  have hWpos : (0 : ℝ) < W := lt_of_lt_of_le one_pos hW1
  have hsqrtW : Real.sqrt W ≠ 0 := by
    rw [Real.sqrt_ne_zero' ]
    exact hWpos
  set s : ℝ := totalPx / Real.sqrt W with hsdef
  have hs0 : 0 ≤ s := div_nonneg ht (Real.sqrt_nonneg W)
  have hsum : sumSq (weights.map fun wgt => wgt * s) = W * s ^ 2 := by
    rw [hWdef]
    unfold sumSq
    rw [List.map_map]
    have hfun : ((fun x => x ^ 2) ∘ fun wgt => wgt * s) = fun wgt => wgt ^ 2 * s ^ 2 := by
      funext wgt
      simp [mul_pow]
    rw [hfun, List.sum_map_mul_right]
  rw [hsum, Real.sqrt_mul hWpos.le, Real.sqrt_sq hs0, hsdef]
  rw [div_eq_mul_inv, ← mul_assoc, mul_comm (Real.sqrt W) totalPx, mul_assoc]
  rw [mul_inv_cancel₀ hsqrtW, mul_one]

/-- C1 witness at `layerCount = 3`, `totalBlur = 5`. -/
theorem exponentialBlurLayers_rss_witness :
    ∃ l, exponentialBlurLayers 5 3 2 = some l ∧ Real.sqrt (sumSq l) = 5 :=
  exponentialBlurLayers_rss 3 (by norm_num) (by norm_num) 5 (by norm_num)

/-- C8: for `layerCount ≤ 0` both blur-distribution functions throw (modelled
as `none`); for `layerCount > 0`, `calcBlurPerLayer` returns
`totalBlur / sqrt(layerCount)`. -/
theorem blur_layer_guard :
    (∀ (t : ℝ) (l : ℤ), l ≤ 0 →
        calcBlurPerLayer t l = none ∧ exponentialBlurLayers t l 2 = none) ∧
    (∀ (t : ℝ) (l : ℤ), 0 < l →
        calcBlurPerLayer t l = some (t / Real.sqrt (l : ℝ))) := by
  constructor
  · intro t l hl
    constructor
    · rw [calcBlurPerLayer, if_pos hl]
    · rw [exponentialBlurLayers, if_pos hl]
  · intro t l hl
    rw [calcBlurPerLayer, if_neg (by omega)]

/-- C8 witness at `layerCount = 0` and `-3` (both throw) and `layerCount = 5`. -/
theorem blur_layer_guard_witness :
    calcBlurPerLayer 20 0 = none ∧ exponentialBlurLayers 20 0 2 = none ∧
      calcBlurPerLayer 7 (-3) = none ∧ exponentialBlurLayers 7 (-3) 2 = none ∧
      calcBlurPerLayer 20 5 = some (20 / Real.sqrt (5 : ℝ)) := by
  refine ⟨(blur_layer_guard.1 20 0 (by norm_num)).1, (blur_layer_guard.1 20 0 (by norm_num)).2,
    (blur_layer_guard.1 7 (-3) (by norm_num)).1, (blur_layer_guard.1 7 (-3) (by norm_num)).2,
    ?_⟩
  have := blur_layer_guard.2 20 5 (by norm_num)
  rw [this]
  norm_num

/-! ### Claim theorems: mask geometry -/

theorem stop_in_range {r s : ℚ} (hr0 : 0 ≤ r) (hr1 : r ≤ 100) (hs0 : 0 ≤ s) (hs1 : s ≤ 1) :
    0 ≤ r * s + 100 * (1 - s) ∧ r * s + 100 * (1 - s) ≤ 100 := by
  constructor
  · nlinarith [mul_nonneg hr0 hs0]
  · nlinarith [mul_le_mul_of_nonneg_right hr1 hs0]

theorem gradientAxis_cases (d : String) :
    gradientAxis d = "to top" ∨ gradientAxis d = "to bottom" ∨
      gradientAxis d = "to left" ∨ gradientAxis d = "to right" := by
  unfold gradientAxis
  split_ifs <;> simp

theorem gradientAxis_default (d : String) (h1 : d ≠ "top") (h2 : d ≠ "left")
    (h3 : d ≠ "right") : gradientAxis d = "to bottom" := by
  unfold gradientAxis
  rw [if_neg h1, if_neg h2, if_neg h3]
  split_ifs <;> rfl

/-- C5 (amended): when the computed `scale` lies in `[0, 1]` (and the element
extent is positive), the three stops of `calculateMask` lie in `[0, 100]`;
and for `offset = elementExtent` without inversion, `scale = 1` and the
descriptor degenerates to the un-inset ramp of clamped raw step values. -/
theorem calculateMask_stops_in_range (i : ℤ) (n : ℕ) (hn : 1 ≤ n) (direction : String)
    (offset : ℚ) (el : ElementBox) (invert : Bool)
    (hsize : 0 < maskExtent direction el) :
    (0 ≤ maskScale direction offset el invert → maskScale direction offset el invert ≤ 1 →
      (0 ≤ (calculateMask i n direction offset el invert).a ∧
        (calculateMask i n direction offset el invert).a ≤ 100) ∧
      (0 ≤ (calculateMask i n direction offset el invert).c ∧
        (calculateMask i n direction offset el invert).c ≤ 100) ∧
      (0 ≤ (calculateMask i n direction offset el invert).d ∧
        (calculateMask i n direction offset el invert).d ≤ 100)) ∧
    (invert = false → offset = maskExtent direction el →
      maskScale direction offset el invert = 1 ∧
      calculateMask i n direction offset el invert =
        ⟨gradientAxis (jsDir direction),
         clamp100 (((i : ℚ) - 1) * (100 / (n : ℚ))),
         clamp100 (((i : ℚ) + 1) * (100 / (n : ℚ))),
         clamp100 (((i : ℚ) + 2) * (100 / (n : ℚ)))⟩) := by
  constructor
  · intro hs0 hs1
    refine ⟨?_, ?_, ?_⟩ <;>
      · simp only [calculateMask]
        exact stop_in_range (clamp100_nonneg _) (clamp100_le_100 _) hs0 hs1
  · intro hinv hoff
    have hscale : maskScale direction offset el invert = 1 := by
      rw [maskScale, hinv, hoff]
      simp only [Bool.false_eq_true, if_false]
      exact div_self (ne_of_gt hsize)
    refine ⟨hscale, ?_⟩
    simp only [calculateMask, hscale]
    norm_num

/-- C5 witness at `i = 0`, `n = 5`, direction `top`, `offset = extent = 200`. -/
theorem calculateMask_stops_in_range_witness :
    (0 ≤ (calculateMask 0 5 "top" 200 ⟨100, 200⟩ false).a ∧
      (calculateMask 0 5 "top" 200 ⟨100, 200⟩ false).a ≤ 100) ∧
    maskScale "top" 200 ⟨100, 200⟩ false = 1 := by
  have hjd : jsDir "top" = "top" := by decide
  have hex : maskExtent "top" (⟨100, 200⟩ : ElementBox) = 200 := by
    rw [maskExtent, hjd, if_neg (by decide)]
  have hsz : 0 < maskExtent "top" (⟨100, 200⟩ : ElementBox) := by
    rw [hex]
    norm_num
  have hsc : maskScale "top" 200 (⟨100, 200⟩ : ElementBox) false = 1 := by
    rw [maskScale]
    simp only [Bool.false_eq_true, if_false]
    rw [hex]
    norm_num
  have H := calculateMask_stops_in_range 0 5 (by norm_num) "top" 200 ⟨100, 200⟩ false hsz
  exact ⟨(H.1 (by rw [hsc]; norm_num) (by rw [hsc])).1, (H.2 rfl hex.symm).1⟩

/-- C5 counterexample: with `offset = 200` on a 100-tall element (scale 2),
the first stop is `-100`, outside `[0, 100]` — the claim's unconditional
in-range assertion fails. -/
theorem calculateMask_stop_out_of_range_cex :
    (calculateMask 0 1 "bottom" 200 ⟨100, 100⟩ false).a = -100 ∧
    ¬ (0 ≤ (calculateMask 0 1 "bottom" 200 ⟨100, 100⟩ false).a) := by
  have h : (calculateMask 0 1 "bottom" 200 ⟨100, 100⟩ false).a = -100 := by
    simp only [calculateMask, maskScale, maskExtent, jsDir, toLowerJS, clamp100, gradientAxis]
    norm_num
  exact ⟨h, by rw [h]; norm_num⟩

/-- C9 (amended): when the computed `scale` is non-negative (positive extent),
the three stops of `calculateMask` are non-decreasing; the gradient axis is
always one of the four edge keywords, and defaults to `to bottom` whenever the
lower-cased direction is none of `top`/`left`/`right`. -/
theorem calculateMask_monotone_axis (i : ℤ) (n : ℕ) (hn : 1 ≤ n) (direction : String)
    (offset : ℚ) (el : ElementBox) (invert : Bool) :
    (0 < maskExtent direction el → 0 ≤ maskScale direction offset el invert →
      (calculateMask i n direction offset el invert).a ≤
        (calculateMask i n direction offset el invert).c ∧
      (calculateMask i n direction offset el invert).c ≤
        (calculateMask i n direction offset el invert).d) ∧
    ((calculateMask i n direction offset el invert).axis = "to top" ∨
      (calculateMask i n direction offset el invert).axis = "to bottom" ∨
      (calculateMask i n direction offset el invert).axis = "to left" ∨
      (calculateMask i n direction offset el invert).axis = "to right") ∧
    (jsDir direction ≠ "top" → jsDir direction ≠ "left" → jsDir direction ≠ "right" →
      (calculateMask i n direction offset el invert).axis = "to bottom") := by
  refine ⟨?_, ?_, ?_⟩
  · intro _ hs0
    have hstep : (0 : ℚ) ≤ 100 / (n : ℚ) := by positivity
    constructor
    · simp only [calculateMask]
      refine add_le_add_right (mul_le_mul_of_nonneg_right (clamp100_mono ?_) hs0) _
      exact mul_le_mul_of_nonneg_right (by linarith) hstep
    · simp only [calculateMask]
      refine add_le_add_right (mul_le_mul_of_nonneg_right (clamp100_mono ?_) hs0) _
      exact mul_le_mul_of_nonneg_right (by linarith) hstep
  · simp only [calculateMask]
    exact gradientAxis_cases _
  · intro h1 h2 h3
    simp only [calculateMask]
    exact gradientAxis_default _ h1 h2 h3

/-- C9 witness at `i = 0`, `n = 2`, unrecognised direction, `offset = 50`. -/
theorem calculateMask_monotone_axis_witness :
    ((calculateMask 0 2 "weird" 50 ⟨100, 100⟩ false).a ≤
      (calculateMask 0 2 "weird" 50 ⟨100, 100⟩ false).c ∧
     (calculateMask 0 2 "weird" 50 ⟨100, 100⟩ false).c ≤
      (calculateMask 0 2 "weird" 50 ⟨100, 100⟩ false).d) ∧
    (calculateMask 0 2 "weird" 50 ⟨100, 100⟩ false).axis = "to bottom" := by
  have hjd : jsDir "weird" = "weird" := by decide
  have hex : maskExtent "weird" (⟨100, 100⟩ : ElementBox) = 100 := by
    rw [maskExtent, hjd, if_neg (by decide)]
  have hsc : maskScale "weird" 50 (⟨100, 100⟩ : ElementBox) false = 1 / 2 := by
    rw [maskScale]
    simp only [Bool.false_eq_true, if_false]
    rw [hex]
    norm_num
  have H := calculateMask_monotone_axis 0 2 (by norm_num) "weird" 50 ⟨100, 100⟩ false
  refine ⟨H.1 (by rw [hex]; norm_num) (by rw [hsc]; norm_num), ?_⟩
  refine H.2.2 ?_ ?_ ?_ <;> rw [hjd] <;> decide

/-- C9 counterexample: with a negative offset (scale `-1`) the stops are not
non-decreasing: the second stop is strictly below the first. -/
theorem calculateMask_not_monotone_cex :
    (calculateMask 1 1 "bottom" (-100) ⟨100, 100⟩ false).c <
      (calculateMask 1 1 "bottom" (-100) ⟨100, 100⟩ false).a := by
  simp only [calculateMask, maskScale, maskExtent, jsDir, toLowerJS, clamp100, gradientAxis]
  norm_num

theorem div_num_num (a b : ℚ) : JSNum.div (JSNum.num a) (JSNum.num b) =
    if b = 0 then (if a = 0 then JSNum.nan else if 0 < a then JSNum.inf else JSNum.ninf)
    else JSNum.num (a / b) := rfl

theorem mul_num_num (a b : ℚ) :
    JSNum.mul (JSNum.num a) (JSNum.num b) = JSNum.num (a * b) := rfl

theorem mul_num_inf (a : ℚ) : JSNum.mul (JSNum.num a) JSNum.inf =
    if a = 0 then JSNum.nan else if 0 < a then JSNum.inf else JSNum.ninf := rfl

theorem mul_num_ninf (a : ℚ) : JSNum.mul (JSNum.num a) JSNum.ninf =
    if a = 0 then JSNum.nan else if 0 < a then JSNum.ninf else JSNum.inf := rfl

theorem clamp100JS_num (v : ℚ) :
    clamp100JS (JSNum.num v) = JSNum.num (max 0 (min 100 v)) := rfl

/-- A stop value `clamp * scale + 100 * (1 - scale)` is `NaN` whenever the
scale is one of the non-finite values, for any non-negative clamped raw stop. -/
theorem stop_nan (cv : ℚ) (hcv : 0 ≤ cv) (scale : JSNum)
    (hs : scale = JSNum.inf ∨ scale = JSNum.ninf ∨ scale = JSNum.nan) :
    JSNum.add (JSNum.mul (JSNum.num cv) scale)
      (JSNum.mul (JSNum.num 100) (JSNum.sub (JSNum.num 1) scale)) = JSNum.nan := by
  have h100a : (100 : ℚ) ≠ 0 := by norm_num
  have h100b : (0 : ℚ) < 100 := by norm_num
  rcases hs with rfl | rfl | rfl
  · rw [show JSNum.sub (JSNum.num 1) JSNum.inf = JSNum.ninf from rfl]
    rw [mul_num_ninf, if_neg h100a, if_pos h100b, mul_num_inf]
    rcases eq_or_lt_of_le hcv with h0 | h0
    · rw [if_pos h0.symm]; rfl
    · rw [if_neg h0.ne', if_pos h0]; rfl
  · rw [show JSNum.sub (JSNum.num 1) JSNum.ninf = JSNum.inf from rfl]
    rw [mul_num_inf, if_neg h100a, if_pos h100b, mul_num_ninf]
    rcases eq_or_lt_of_le hcv with h0 | h0
    · rw [if_pos h0.symm]; rfl
    · rw [if_neg h0.ne', if_pos h0]; rfl
  · rw [show JSNum.sub (JSNum.num 1) JSNum.nan = JSNum.nan from rfl]
    rw [show JSNum.mul (JSNum.num 100) JSNum.nan = JSNum.nan from rfl]
    rw [show JSNum.mul (JSNum.num cv) JSNum.nan = JSNum.nan from rfl]
    rfl

/-- C6 (amended): calling `calculateMask` with a zero element extent raises no
error, but `scale = offset / 0` is a JavaScript infinity (or `NaN` for
`offset = 0`), and all three stop positions come out as `NaN` — not the
`scale = 0` stops the spec asks for. -/
theorem calculateMask_zero_extent_nan (i : ℤ) (n : ℕ) (hn : 1 ≤ n) (direction : String)
    (q : ℚ) (invert : Bool) :
    (calculateMaskJS i n direction (JSNum.num q) (JSNum.num 0) (JSNum.num 0) invert).a
        = JSNum.nan ∧
    (calculateMaskJS i n direction (JSNum.num q) (JSNum.num 0) (JSNum.num 0) invert).c
        = JSNum.nan ∧
    (calculateMaskJS i n direction (JSNum.num q) (JSNum.num 0) (JSNum.num 0) invert).d
        = JSNum.nan := by
  have hn0 : ((n : ℚ)) ≠ 0 := Nat.cast_ne_zero.mpr (by omega)
  have hdiv : JSNum.div (JSNum.num q) (JSNum.num 0) = JSNum.inf ∨
      JSNum.div (JSNum.num q) (JSNum.num 0) = JSNum.ninf ∨
      JSNum.div (JSNum.num q) (JSNum.num 0) = JSNum.nan := by
    rw [div_num_num, if_pos rfl]
    rcases lt_trichotomy q 0 with hq | hq | hq
    · right; left
      rw [if_neg hq.ne, if_neg (not_lt.mpr hq.le)]
    · right; right
      rw [if_pos hq]
    · left
      rw [if_neg hq.ne', if_pos hq]
  have hscale : ∀ invert' : Bool,
      (if invert' then JSNum.sub (JSNum.num 1) (JSNum.div (JSNum.num q) (JSNum.num 0))
        else JSNum.div (JSNum.num q) (JSNum.num 0)) = JSNum.inf ∨
      (if invert' then JSNum.sub (JSNum.num 1) (JSNum.div (JSNum.num q) (JSNum.num 0))
        else JSNum.div (JSNum.num q) (JSNum.num 0)) = JSNum.ninf ∨
      (if invert' then JSNum.sub (JSNum.num 1) (JSNum.div (JSNum.num q) (JSNum.num 0))
        else JSNum.div (JSNum.num q) (JSNum.num 0)) = JSNum.nan := by
    intro invert'
    cases invert' with
    | false =>
      simpa using hdiv
    | true =>
      simp only [if_pos]
      rcases hdiv with hd | hd | hd <;> rw [hd]
      · right; left; rfl
      · left; rfl
      · right; right; rfl
  simp only [calculateMaskJS, ite_self, div_num_num, if_neg hn0, mul_num_num,
    clamp100JS_num]
  have hsc := hscale invert
  simp only [div_num_num, if_pos rfl] at hsc ⊢
  exact ⟨stop_nan _ (le_max_left _ _) _ hsc, stop_nan _ (le_max_left _ _) _ hsc,
    stop_nan _ (le_max_left _ _) _ hsc⟩

/-- C6 witness at `i = 0`, `n = 1`, direction `bottom`, `offset = 10`. -/
theorem calculateMask_zero_extent_nan_witness :
    (calculateMaskJS 0 1 "bottom" (JSNum.num 10) (JSNum.num 0) (JSNum.num 0) false).a
      = JSNum.nan :=
  (calculateMask_zero_extent_nan 0 1 (by norm_num) "bottom" 10 false).1

/-- C6 counterexample: at `offset = 10`, extent `0`, the first stop is `NaN`,
while treating `scale` as `0` would give the stop value `100`. -/
theorem calculateMask_zero_extent_cex :
    (calculateMaskJS 0 1 "bottom" (JSNum.num 10) (JSNum.num 0) (JSNum.num 0) false).a
        = JSNum.nan ∧
    (maskStopsWithScale 0 1 0).1 = 100 ∧ JSNum.nan ≠ JSNum.num 100 := by
  refine ⟨?_, ?_, by simp⟩
  · simp only [calculateMaskJS, jsDir, toLowerJS, clamp100JS, JSNum.div, JSNum.mul,
      JSNum.add, JSNum.sub, JSNum.neg, JSNum.jsMax, JSNum.jsMin, gradientAxis]
    norm_num
  · simp only [maskStopsWithScale, clamp100]
    norm_num

/-! ### Buffer lemmas and claim theorems -/

theorem gradSeg_top (x y dx dy dw dh : ℚ) :
    gradSeg "top" x y dx dy dw dh = (dh - (y - dy)) / dh := by
  unfold gradSeg
  rw [if_neg (by decide), if_pos (by decide)]

theorem gradSeg_bottom (x y dx dy dw dh : ℚ) :
    gradSeg "bottom" x y dx dy dw dh = (y - dy) / dh := by
  unfold gradSeg
  rw [if_neg (by decide), if_neg (by decide), if_neg (by decide), if_neg (by decide)]

theorem gradSeg_left (x y dx dy dw dh : ℚ) :
    gradSeg "left" x y dx dy dw dh = (dw - (x - dx)) / dw := by
  unfold gradSeg
  rw [if_neg (by decide), if_neg (by decide), if_neg (by decide), if_pos (by decide)]

theorem gradSeg_right (x y dx dy dw dh : ℚ) :
    gradSeg "right" x y dx dy dw dh = (x - dx) / dw := by
  unfold gradSeg
  rw [if_neg (by decide), if_neg (by decide), if_pos (by decide)]

theorem initData_range (w h : ℤ) (n : ℤ) :
    0 ≤ initData w h n ∧ initData w h n ≤ 255 := by
  unfold initData
  split_ifs <;> norm_num

/-- Pixel values of the constructor-filled buffer (helper). -/
theorem initData_pixel (w h : ℤ) (hw : 0 < w) (hh : 0 < h) (x y : ℤ)
    (hx0 : 0 ≤ x) (hxw : x < w) (hy0 : 0 ≤ y) (hyh : y < h) :
    pixelChan (initData w h) w x y 0 = 127 ∧ pixelChan (initData w h) w x y 1 = 127 ∧
    pixelChan (initData w h) w x y 2 = 127 ∧ pixelChan (initData w h) w x y 3 = 255 := by
  have hq0 : 0 ≤ y * w + x := add_nonneg (mul_nonneg hy0 hw.le) hx0
  have hqlt : y * w + x < w * h := by nlinarith
  have hbase : ∀ c : ℤ, 0 ≤ c → c < 4 →
      (0 ≤ (y * w + x) * 4 + c ∧ (y * w + x) * 4 + c < 4 * w * h) := by
    intro c hc0 hc4
    constructor
    · linarith
    · nlinarith
  have hmod : ∀ c : ℤ, 0 ≤ c → c < 4 → ((y * w + x) * 4 + c) % 4 = c := by
    intro c hc0 hc4
    rw [mul_comm, add_comm, Int.add_mul_emod_self_left]
    exact Int.emod_eq_of_lt hc0 hc4
  unfold pixelChan initData
  refine ⟨?_, ?_, ?_, ?_⟩
  · rw [if_pos (hbase 0 (by norm_num) (by norm_num)),
      if_neg (by rw [hmod 0 (by norm_num) (by norm_num)]; norm_num)]
  · rw [if_pos (hbase 1 (by norm_num) (by norm_num)),
      if_neg (by rw [hmod 1 (by norm_num) (by norm_num)]; norm_num)]
  · rw [if_pos (hbase 2 (by norm_num) (by norm_num)),
      if_neg (by rw [hmod 2 (by norm_num) (by norm_num)]; norm_num)]
  · rw [if_pos (hbase 3 (by norm_num) (by norm_num)),
      if_pos (hmod 3 (by norm_num) (by norm_num))]

/-- C7: the `RefractionEditor` constructor fills every pixel of a
`width × height` buffer with the neutral value 127 in the two displacement
channels and the unused channel, and 255 in the alpha channel. -/
theorem init_neutral (w h : ℤ) (hw : 0 < w) (hh : 0 < h) (x y : ℤ)
    (hx0 : 0 ≤ x) (hxw : x < w) (hy0 : 0 ≤ y) (hyh : y < h) :
    pixelChan (initData w h) w x y 0 = 127 ∧ pixelChan (initData w h) w x y 1 = 127 ∧
    pixelChan (initData w h) w x y 2 = 127 ∧ pixelChan (initData w h) w x y 3 = 255 :=
  initData_pixel w h hw hh x y hx0 hxw hy0 hyh

/-- C7 witness on a 2×3 buffer at pixel (1, 2). -/
theorem init_neutral_witness :
    pixelChan (initData 2 3) 2 1 2 0 = 127 ∧ pixelChan (initData 2 3) 2 1 2 1 = 127 ∧
    pixelChan (initData 2 3) 2 1 2 2 = 127 ∧ pixelChan (initData 2 3) 2 1 2 3 = 255 :=
  init_neutral 2 3 (by norm_num) (by norm_num) 1 2 (by norm_num) (by norm_num)
    (by norm_num) (by norm_num)

theorem applyAll_range (w h : ℤ) (ts : List EdgeTransformation) (b : Buffer) (n : ℤ)
    (hb : 0 ≤ b n ∧ b n ≤ 255) :
    0 ≤ applyAll w h ts b n ∧ applyAll w h ts b n ≤ 255 := by
  induction ts generalizing b with
  | nil => exact hb
  | cons t ts ih =>
    have hstep : 0 ≤ applyTf w h b t n ∧ applyTf w h b t n ≤ 255 := by
      unfold applyTf addTransformation
      exact writeFold_range w h t.vx t.vy t.direction t.dx t.dy t.dw t.dh t.easing _ b n hb
    exact ih _ hstep

/-- C4: starting from the neutral-filled buffer, after any finite sequence of
`addTransformation` calls (arbitrary directions, rectangles, easing functions
and displacement magnitudes), every stored value is in `[0, 255]`: each write
is rounded then saturation-clamped, so no overflow or wraparound occurs. -/
theorem addTransformation_range (w h : ℤ) (ts : List EdgeTransformation) (n : ℤ) :
    0 ≤ applyAll w h ts (initData w h) n ∧ applyAll w h ts (initData w h) n ≤ 255 :=
  applyAll_range w h ts (initData w h) n (initData_range w h n)

/-- C10 (amended): for integer rectangle parameters, `addTransformation` is a
frame-preserving update: any buffer pixel outside the target rectangle keeps
all four channel values, and the G (unused) and A (alpha) channels are never
written anywhere. -/
theorem addTransformation_frame (w h : ℤ) (vx vy : ℚ → ℚ → ℚ → ℚ → ℚ)
    (direction : String) (dx dy dw dh : ℤ) (easing : ℚ → ℚ) (b : Buffer) (x y c : ℤ)
    (hx0 : 0 ≤ x) (hxw : x < w) (hy0 : 0 ≤ y) (hyh : y < h) (hc0 : 0 ≤ c) (hc4 : c < 4) :
    (¬ (dx ≤ x ∧ x < dx + dw ∧ dy ≤ y ∧ y < dy + dh) →
      addTransformation w h vx vy direction (dx : ℚ) (dy : ℚ) (dw : ℚ) (dh : ℚ) easing b
        ((y * w + x) * 4 + c) = b ((y * w + x) * 4 + c)) ∧
    addTransformation w h vx vy direction (dx : ℚ) (dy : ℚ) (dw : ℚ) (dh : ℚ) easing b
      ((y * w + x) * 4 + 1) = b ((y * w + x) * 4 + 1) ∧
    addTransformation w h vx vy direction (dx : ℚ) (dy : ℚ) (dw : ℚ) (dh : ℚ) easing b
      ((y * w + x) * 4 + 3) = b ((y * w + x) * 4 + 3) := by
  refine ⟨?_, ?_, ?_⟩
  · intro hout
    rw [addTransformation_int_apply w h vx vy direction dx dy dw dh easing b x y c
      hx0 hxw hy0 hyh hc0 hc4, if_neg hout]
  · rw [addTransformation_int_apply w h vx vy direction dx dy dw dh easing b x y 1
      hx0 hxw hy0 hyh (by norm_num) (by norm_num)]
    by_cases hA : dx ≤ x ∧ x < dx + dw ∧ dy ≤ y ∧ y < dy + dh
    · rw [if_pos hA, if_neg (by norm_num), if_neg (by norm_num)]
    · rw [if_neg hA]
  · rw [addTransformation_int_apply w h vx vy direction dx dy dw dh easing b x y 3
      hx0 hxw hy0 hyh (by norm_num) (by norm_num)]
    by_cases hA : dx ≤ x ∧ x < dx + dw ∧ dy ≤ y ∧ y < dy + dh
    · rw [if_pos hA, if_neg (by norm_num), if_neg (by norm_num)]
    · rw [if_neg hA]

/-- C10 witness: a 1×1 rectangle at the origin of a 2×2 buffer leaves pixel
(1, 1) and the G channel of pixel (0, 0) untouched. -/
theorem addTransformation_frame_witness :
    addTransformation 2 2 (constF 0) (constF 1) "up" ((0 : ℤ) : ℚ) ((0 : ℤ) : ℚ)
      ((1 : ℤ) : ℚ) ((1 : ℤ) : ℚ) (fun q => q) (initData 2 2) ((1 * 2 + 1) * 4 + 0) =
      initData 2 2 ((1 * 2 + 1) * 4 + 0) ∧
    addTransformation 2 2 (constF 0) (constF 1) "up" ((0 : ℤ) : ℚ) ((0 : ℤ) : ℚ)
      ((1 : ℤ) : ℚ) ((1 : ℤ) : ℚ) (fun q => q) (initData 2 2) ((0 * 2 + 0) * 4 + 1) =
      initData 2 2 ((0 * 2 + 0) * 4 + 1) := by
  constructor
  · exact (addTransformation_frame 2 2 (constF 0) (constF 1) "up" 0 0 1 1 (fun q => q)
      (initData 2 2) 1 1 0 (by norm_num) (by norm_num) (by norm_num) (by norm_num)
      (by norm_num) (by norm_num)).1 (by norm_num)
  · exact (addTransformation_frame 2 2 (constF 0) (constF 1) "up" 0 0 1 1 (fun q => q)
      (initData 2 2) 0 0 1 (by norm_num) (by norm_num) (by norm_num) (by norm_num)
      (by norm_num) (by norm_num)).2.1

/-- C10 counterexample: with the fractional rectangle `dy = 1/2`, `dh = 1`,
the single loop row `y = 1/2` aliases through `pixelIndex = (0.5·2+0)·4 = 4`
into pixel (1, 0) — a pixel *outside* the rectangle — and changes its B
channel from 127 to 254, so the unrestricted frame-preservation claim fails. -/
theorem addTransformation_fractional_rect_cex :
    pixelChan (addTransformation 2 2 (constF 0) (constF 1) "up" 0 (1 / 2) 1 1
      (fun q => q) (initData 2 2)) 2 1 0 2 = 254 ∧
    pixelChan (initData 2 2) 2 1 0 2 = 127 ∧
    ¬ inRect 0 (1 / 2) 1 1 ((1 : ℤ) : ℚ) ((0 : ℤ) : ℚ) := by
  refine ⟨?_, ?_, ?_⟩
  · have hrc : rectCoords 0 (1 / 2) 1 1 = [((0 : ℚ), (1 / 2 : ℚ))] := by
      norm_num [rectCoords, iterCount, Int.ceil_one, List.range_succ]
    have hseg : gradSeg "up" 0 (1 / 2) 0 (1 / 2) 1 1 = 1 := by
      unfold gradSeg
      rw [if_neg (by decide), if_pos (by decide)]
      norm_num
    unfold pixelChan addTransformation
    rw [hrc]
    unfold writeFold
    simp only [List.foldl_cons, List.foldl_nil]
    rw [writePixel]
    rw [if_neg (by norm_num)]
    simp only []
    norm_num [hseg, clamp01, constF, initData, clamp255, roundJS]
  · norm_num [pixelChan, initData]
  · unfold inRect
    push_neg
    intro h1
    norm_num

/-- `addTransformation_int_apply` with the rectangle parameters given as
rationals that happen to equal integers (as they do in the synthesizers'
calls). -/
theorem addTransformation_int_apply' (w h : ℤ) (vx vy : ℚ → ℚ → ℚ → ℚ → ℚ)
    (direction : String) (dxq dyq dwq dhq : ℚ) (dx dy dw dh : ℤ)
    (hdx : dxq = (dx : ℚ)) (hdy : dyq = (dy : ℚ)) (hdw : dwq = (dw : ℚ))
    (hdh : dhq = (dh : ℚ)) (easing : ℚ → ℚ) (b : Buffer) (x y c : ℤ)
    (hx0 : 0 ≤ x) (hxw : x < w) (hy0 : 0 ≤ y) (hyh : y < h) (hc0 : 0 ≤ c) (hc4 : c < 4) :
    addTransformation w h vx vy direction dxq dyq dwq dhq easing b
        ((y * w + x) * 4 + c) =
      if dx ≤ x ∧ x < dx + dw ∧ dy ≤ y ∧ y < dy + dh then
        if c = 0 then
          clamp255 (roundJS ((b ((y * w + x) * 4) : ℚ) +
            127 * vx (x : ℚ) (y : ℚ) (dw : ℚ) (dh : ℚ) *
            easing (clamp01 (gradSeg direction (x : ℚ) (y : ℚ) (dx : ℚ) (dy : ℚ) (dw : ℚ) (dh : ℚ)))))
        else if c = 2 then
          clamp255 (roundJS ((b ((y * w + x) * 4 + 2) : ℚ) +
            127 * vy (x : ℚ) (y : ℚ) (dw : ℚ) (dh : ℚ) *
            easing (clamp01 (gradSeg direction (x : ℚ) (y : ℚ) (dx : ℚ) (dy : ℚ) (dw : ℚ) (dh : ℚ)))))
        else b ((y * w + x) * 4 + c)
      else b ((y * w + x) * 4 + c) := by
  subst hdx
  subst hdy
  subst hdw
  subst hdh
  exact addTransformation_int_apply w h vx vy direction dx dy dw dh easing b x y c
    hx0 hxw hy0 hyh hc0 hc4

theorem writePixel_zero_id (w h : ℤ) (direction : String) (dx dy dw dh : ℚ)
    (easing : ℚ → ℚ) (b : Buffer) (x y : ℚ)
    (hb : ∀ m, 0 ≤ b m ∧ b m ≤ 255) :
    writePixel w h (constF 0) (constF 0) direction dx dy dw dh easing b x y = b := by
  funext n
  unfold writePixel
  by_cases hbnd : x < 0 ∨ y < 0 ∨ (w : ℚ) ≤ x ∨ (h : ℚ) ≤ y
  · rw [if_pos hbnd]
  · rw [if_neg hbnd]
    have hval : ∀ m : ℤ, clamp255 (roundJS ((b m : ℚ) + 127 * constF 0 x y dw dh *
        easing (clamp01 (gradSeg direction x y dx dy dw dh)))) = b m := by
      intro m
      rw [show (127 : ℚ) * constF 0 x y dw dh *
        easing (clamp01 (gradSeg direction x y dx dy dw dh)) = 0 by
          rw [constF]; ring]
      rw [add_zero, roundJS_intCast, clamp255_eq_self (hb m).1 (hb m).2]
    simp only [hval, ite_self]

theorem writeFold_zero_id (w h : ℤ) (direction : String) (dx dy dw dh : ℚ)
    (easing : ℚ → ℚ) (l : List (ℚ × ℚ)) (b : Buffer)
    (hb : ∀ m, 0 ≤ b m ∧ b m ≤ 255) :
    writeFold w h (constF 0) (constF 0) direction dx dy dw dh easing b l = b := by
  induction l with
  | nil => rfl
  | cons p t ih =>
    rw [writeFold_cons, writePixel_zero_id w h direction dx dy dw dh easing b p.1 p.2 hb]
    exact ih

theorem addTransformation_zero_id (w h : ℤ) (direction : String) (dx dy dw dh : ℚ)
    (easing : ℚ → ℚ) (b : Buffer) (hb : ∀ m, 0 ≤ b m ∧ b m ≤ 255) :
    addTransformation w h (constF 0) (constF 0) direction dx dy dw dh easing b = b := by
  unfold addTransformation
  exact writeFold_zero_id w h direction dx dy dw dh easing _ b hb

/-- C2 (amended): the neutral refraction strength of
`calculateRefractionMap` is 0, not 1.0 — at `refraction = 0` every edge pass
adds `127 * 0 * eased = 0` and the buffer equals the neutral baseline exactly,
for every width, height and radius. -/
theorem refractionMap_neutral_at_zero (w h : ℤ) (radius : ℚ) (n : ℤ) :
    calculateRefractionMap 0 w h radius n = initData w h n := by
  have hinit : ∀ m, 0 ≤ initData w h m ∧ initData w h m ≤ 255 := initData_range w h
  have hc1 : constF (1 * ((0 : ℚ) / 2)) = constF 0 := by norm_num
  have hc2 : constF (-1 * ((0 : ℚ) / 2)) = constF 0 := by norm_num
  simp only [calculateRefractionMap, hc1, hc2]
  rw [addTransformation_zero_id w h "top" 0 0 (w : ℚ) ((h : ℚ) / 2) pow1 (initData w h) hinit]
  rw [addTransformation_zero_id w h "bottom" 0 ((h : ℚ) - (h : ℚ) / 2) (w : ℚ) ((h : ℚ) / 2)
    pow1 (initData w h) hinit]
  rw [addTransformation_zero_id w h "left" 0 0 ((w : ℚ) / 2) (h : ℚ) pow1 (initData w h) hinit]
  rw [addTransformation_zero_id w h "right" ((w : ℚ) - (w : ℚ) / 2) 0 ((w : ℚ) / 2) (h : ℚ)
    pow1 (initData w h) hinit]

/-- C2 counterexample: at the claimed neutral strength `refraction = 1.0`, on
a 2×2 buffer, the vertical displacement channel of pixel (0, 0) reads 191,
a deviation of 64 from the neutral 127 — the "no refraction at 1.0" claim
fails (the deviation scales with `refraction`, not `refraction - 1`). -/
theorem refractionMap_not_neutral_at_one :
    pixelChan (calculateRefractionMap 1 2 2 0) 2 0 0 2 = 191 ∧ (191 : ℤ) ≠ 127 := by
  refine ⟨?_, by norm_num⟩
  have hrange : ∀ (vx vy : ℚ → ℚ → ℚ → ℚ → ℚ) (direction : String) (dxq dyq dwq dhq : ℚ)
      (easing : ℚ → ℚ) (b : Buffer) (m : ℤ), (0 ≤ b m ∧ b m ≤ 255) →
      0 ≤ addTransformation 2 2 vx vy direction dxq dyq dwq dhq easing b m ∧
        addTransformation 2 2 vx vy direction dxq dyq dwq dhq easing b m ≤ 255 := by
    intro vx vy direction dxq dyq dwq dhq easing b m hb
    unfold addTransformation
    exact writeFold_range 2 2 vx vy direction dxq dyq dwq dhq easing _ b m hb
  have hv1 : addTransformation 2 2 (constF 0) (constF (1 * ((1 : ℚ) / 2))) "top" 0 0
      ((2 : ℤ) : ℚ) (((2 : ℤ) : ℚ) / 2) pow1 (initData 2 2) ((0 * 2 + 0) * 4 + 2) = 191 := by
    rw [addTransformation_int_apply' 2 2 (constF 0) (constF (1 * ((1 : ℚ) / 2))) "top"
      0 0 ((2 : ℤ) : ℚ) (((2 : ℤ) : ℚ) / 2) 0 0 2 1 (by norm_num) (by norm_num)
      (by norm_num) (by norm_num) pow1 (initData 2 2) 0 0 2 (by norm_num) (by norm_num)
      (by norm_num) (by norm_num) (by norm_num) (by norm_num)]
    rw [if_pos (by norm_num), if_neg (by norm_num), if_pos rfl]
    rw [gradSeg_top]
    norm_num [constF, pow1, clamp01, initData, roundJS, clamp255]
  have hv2 : ∀ b : Buffer, addTransformation 2 2 (constF 0) (constF (-1 * ((1 : ℚ) / 2)))
      "bottom" 0 (((2 : ℤ) : ℚ) - ((2 : ℤ) : ℚ) / 2) ((2 : ℤ) : ℚ) (((2 : ℤ) : ℚ) / 2) pow1 b
      ((0 * 2 + 0) * 4 + 2) = b ((0 * 2 + 0) * 4 + 2) := by
    intro b
    rw [addTransformation_int_apply' 2 2 (constF 0) (constF (-1 * ((1 : ℚ) / 2))) "bottom"
      0 (((2 : ℤ) : ℚ) - ((2 : ℤ) : ℚ) / 2) ((2 : ℤ) : ℚ) (((2 : ℤ) : ℚ) / 2) 0 1 2 1
      (by norm_num) (by norm_num) (by norm_num) (by norm_num) pow1 b 0 0 2 (by norm_num)
      (by norm_num) (by norm_num) (by norm_num) (by norm_num) (by norm_num)]
    rw [if_neg (by norm_num)]
  have hv3 : ∀ b : Buffer, 0 ≤ b ((0 * 2 + 0) * 4 + 2) → b ((0 * 2 + 0) * 4 + 2) ≤ 255 →
      addTransformation 2 2 (constF (1 * ((1 : ℚ) / 2))) (constF 0) "left" 0 0
        (((2 : ℤ) : ℚ) / 2) ((2 : ℤ) : ℚ) pow1 b ((0 * 2 + 0) * 4 + 2) =
        b ((0 * 2 + 0) * 4 + 2) := by
    intro b hb1 hb2
    rw [addTransformation_int_apply' 2 2 (constF (1 * ((1 : ℚ) / 2))) (constF 0) "left"
      0 0 (((2 : ℤ) : ℚ) / 2) ((2 : ℤ) : ℚ) 0 0 1 2 (by norm_num) (by norm_num)
      (by norm_num) (by norm_num) pow1 b 0 0 2 (by norm_num) (by norm_num) (by norm_num)
      (by norm_num) (by norm_num) (by norm_num)]
    rw [if_pos (by norm_num), if_neg (by norm_num), if_pos rfl]
    rw [show (127 : ℚ) * constF 0 ((0 : ℤ) : ℚ) ((0 : ℤ) : ℚ) ((1 : ℤ) : ℚ) ((2 : ℤ) : ℚ) *
      pow1 (clamp01 (gradSeg "left" ((0 : ℤ) : ℚ) ((0 : ℤ) : ℚ) ((0 : ℤ) : ℚ) ((0 : ℤ) : ℚ)
        ((1 : ℤ) : ℚ) ((2 : ℤ) : ℚ))) = 0 by rw [constF]; ring]
    rw [add_zero, roundJS_intCast, clamp255_eq_self hb1 hb2]
  have hv4 : ∀ b : Buffer, addTransformation 2 2 (constF (-1 * ((1 : ℚ) / 2))) (constF 0)
      "right" (((2 : ℤ) : ℚ) - ((2 : ℤ) : ℚ) / 2) 0 (((2 : ℤ) : ℚ) / 2) ((2 : ℤ) : ℚ) pow1 b
      ((0 * 2 + 0) * 4 + 2) = b ((0 * 2 + 0) * 4 + 2) := by
    intro b
    rw [addTransformation_int_apply' 2 2 (constF (-1 * ((1 : ℚ) / 2))) (constF 0) "right"
      (((2 : ℤ) : ℚ) - ((2 : ℤ) : ℚ) / 2) 0 (((2 : ℤ) : ℚ) / 2) ((2 : ℤ) : ℚ) 1 0 1 2
      (by norm_num) (by norm_num) (by norm_num) (by norm_num) pow1 b 0 0 2 (by norm_num)
      (by norm_num) (by norm_num) (by norm_num) (by norm_num) (by norm_num)]
    rw [if_neg (by norm_num)]
  unfold pixelChan
  simp only [calculateRefractionMap]
  rw [hv4, hv3 _ (hrange _ _ _ _ _ _ _ _ _ _ (hrange _ _ _ _ _ _ _ _ _ _
    (initData_range 2 2 _))).1 (hrange _ _ _ _ _ _ _ _ _ _ (hrange _ _ _ _ _ _ _ _ _ _
    (initData_range 2 2 _))).2, hv2, hv1]

/-- A pass leaves channel `c` of pixel `(x, y)` unchanged when the pixel is
outside the rectangle, or when the displacement argument feeding that channel
is the constant 0 (the stored value is then re-rounded and re-clamped, which
is the identity on stored bytes). -/
theorem addT_unchanged (w h : ℤ) (vx vy : ℚ → ℚ → ℚ → ℚ → ℚ) (direction : String)
    (dxq dyq dwq dhq : ℚ) (dx dy dw dh : ℤ)
    (hdx : dxq = (dx : ℚ)) (hdy : dyq = (dy : ℚ)) (hdw : dwq = (dw : ℚ))
    (hdh : dhq = (dh : ℚ)) (easing : ℚ → ℚ) (b : Buffer) (x y c : ℤ)
    (hx0 : 0 ≤ x) (hxw : x < w) (hy0 : 0 ≤ y) (hyh : y < h) (hc0 : 0 ≤ c) (hc4 : c < 4)
    (hcase : ¬ (dx ≤ x ∧ x < dx + dw ∧ dy ≤ y ∧ y < dy + dh) ∨
      (c = 2 ∧ vy = constF 0) ∨ (c = 0 ∧ vx = constF 0))
    (hb0 : 0 ≤ b ((y * w + x) * 4 + c)) (hb1 : b ((y * w + x) * 4 + c) ≤ 255) :
    addTransformation w h vx vy direction dxq dyq dwq dhq easing b ((y * w + x) * 4 + c)
      = b ((y * w + x) * 4 + c) := by
  rw [addTransformation_int_apply' w h vx vy direction dxq dyq dwq dhq dx dy dw dh
    hdx hdy hdw hdh easing b x y c hx0 hxw hy0 hyh hc0 hc4]
  rcases hcase with hout | ⟨hc, hvy⟩ | ⟨hc, hvx⟩
  · rw [if_neg hout]
  · subst hc
    by_cases hin : dx ≤ x ∧ x < dx + dw ∧ dy ≤ y ∧ y < dy + dh
    · rw [if_pos hin, if_neg (by norm_num), if_pos rfl, hvy]
      rw [show (127 : ℚ) * constF 0 (x : ℚ) (y : ℚ) (dw : ℚ) (dh : ℚ) *
        easing (clamp01 (gradSeg direction (x : ℚ) (y : ℚ) (dx : ℚ) (dy : ℚ) (dw : ℚ) (dh : ℚ)))
        = 0 by rw [constF]; ring]
      rw [add_zero, roundJS_intCast, clamp255_eq_self hb0 hb1]
    · rw [if_neg hin]
  · subst hc
    by_cases hin : dx ≤ x ∧ x < dx + dw ∧ dy ≤ y ∧ y < dy + dh
    · rw [if_pos hin, if_pos rfl, hvx]
      rw [show (127 : ℚ) * constF 0 (x : ℚ) (y : ℚ) (dw : ℚ) (dh : ℚ) *
        easing (clamp01 (gradSeg direction (x : ℚ) (y : ℚ) (dx : ℚ) (dy : ℚ) (dw : ℚ) (dh : ℚ)))
        = 0 by rw [constF]; ring]
      have hb0' : 0 ≤ b ((y * w + x) * 4) := by
        have : (y * w + x) * 4 + 0 = (y * w + x) * 4 := add_zero _
        rwa [this] at hb0
      have hb1' : b ((y * w + x) * 4) ≤ 255 := by
        have : (y * w + x) * 4 + 0 = (y * w + x) * 4 := add_zero _
        rwa [this] at hb1
      rw [add_zero, roundJS_intCast, clamp255_eq_self hb0' hb1']
      rw [show (y * w + x) * 4 + 0 = (y * w + x) * 4 from add_zero _]
    · rw [if_neg hin]

/-- A pass whose vertical displacement contribution is non-negative keeps the
B channel of a pixel within `[128, 255]` once it is there. -/
theorem addT_c2_mono (w h : ℤ) (vx vy : ℚ → ℚ → ℚ → ℚ → ℚ) (direction : String)
    (dxq dyq dwq dhq : ℚ) (dx dy dw dh : ℤ)
    (hdx : dxq = (dx : ℚ)) (hdy : dyq = (dy : ℚ)) (hdw : dwq = (dw : ℚ))
    (hdh : dhq = (dh : ℚ)) (easing : ℚ → ℚ) (b : Buffer) (x y : ℤ)
    (hx0 : 0 ≤ x) (hxw : x < w) (hy0 : 0 ≤ y) (hyh : y < h)
    (hvy : 0 ≤ 127 * vy (x : ℚ) (y : ℚ) (dw : ℚ) (dh : ℚ) *
      easing (clamp01 (gradSeg direction (x : ℚ) (y : ℚ) (dx : ℚ) (dy : ℚ) (dw : ℚ) (dh : ℚ))))
    (hb1 : 128 ≤ b ((y * w + x) * 4 + 2)) (hb2 : b ((y * w + x) * 4 + 2) ≤ 255) :
    128 ≤ addTransformation w h vx vy direction dxq dyq dwq dhq easing b
        ((y * w + x) * 4 + 2) ∧
    addTransformation w h vx vy direction dxq dyq dwq dhq easing b
        ((y * w + x) * 4 + 2) ≤ 255 := by
  rw [addTransformation_int_apply' w h vx vy direction dxq dyq dwq dhq dx dy dw dh
    hdx hdy hdw hdh easing b x y 2 hx0 hxw hy0 hyh (by norm_num) (by norm_num)]
  by_cases hin : dx ≤ x ∧ x < dx + dw ∧ dy ≤ y ∧ y < dy + dh
  · rw [if_pos hin, if_neg (by norm_num), if_pos rfl]
    refine ⟨le_clamp255 (by norm_num) ?_, clamp255_le_255 _⟩
    have hq : (128 : ℚ) ≤ (b ((y * w + x) * 4 + 2) : ℚ) +
        127 * vy (x : ℚ) (y : ℚ) (dw : ℚ) (dh : ℚ) * easing (clamp01
          (gradSeg direction (x : ℚ) (y : ℚ) (dx : ℚ) (dy : ℚ) (dw : ℚ) (dh : ℚ))) := by
      have h128 : (128 : ℚ) ≤ (b ((y * w + x) * 4 + 2) : ℚ) := by exact_mod_cast hb1
      linarith
    calc (128 : ℤ) = roundJS ((128 : ℤ) : ℚ) := (roundJS_intCast 128).symm
    _ ≤ roundJS _ := roundJS_mono hq
  · rw [if_neg hin]
    exact ⟨hb1, hb2⟩

/-- C3 (amended): for `calculateGlassRefractionMap(2.0, 10, 100, 100, 0)`,
the effective top strip is only `offset / 2 = 5` pixels: rows 0–4 carry a
vertical-channel displacement of consistent positive sign (value in
`[128, 255]`); top-strip pixels in rows 5–9 away from the side strips keep
the neutral 127 in the vertical channel; and the central 80×80 region keeps
the exact neutral value in both displacement channels. -/
theorem glassMap_scenario :
    (∀ x y : ℤ, 0 ≤ x → x < 100 → 0 ≤ y → y < 5 →
      128 ≤ pixelChan (calculateGlassRefractionMap 2 10 100 100 0) 100 x y 2 ∧
        pixelChan (calculateGlassRefractionMap 2 10 100 100 0) 100 x y 2 ≤ 255) ∧
    (∀ x y : ℤ, 10 ≤ x → x < 90 → 5 ≤ y → y < 10 →
      pixelChan (calculateGlassRefractionMap 2 10 100 100 0) 100 x y 2 = 127) ∧
    (∀ x y : ℤ, 10 ≤ x → x < 90 → 10 ≤ y → y < 90 →
      pixelChan (calculateGlassRefractionMap 2 10 100 100 0) 100 x y 0 = 127 ∧
        pixelChan (calculateGlassRefractionMap 2 10 100 100 0) 100 x y 2 = 127) := by
  refine ⟨?_, ?_, ?_⟩
  · -- rows 0–4: positive vertical displacement
    intro x y hx1 hx2 hy1 hy2
    have hx0' : (0 : ℤ) ≤ x := hx1
    have hxw' : x < 100 := hx2
    have hy0' : (0 : ℤ) ≤ y := hy1
    have hyh' : y < 100 := by omega
    have hpix := initData_pixel 100 100 (by norm_num) (by norm_num) x y hx0' hxw' hy0' hyh'
    have hyq4 : (y : ℚ) ≤ 4 := by exact_mod_cast (by omega : y ≤ (4 : ℤ))
    have hyq0 : (0 : ℚ) ≤ (y : ℚ) := by exact_mod_cast hy0'
    have sstep : ∀ (vx vy : ℚ → ℚ → ℚ → ℚ → ℚ) (dir : String) (dxq dyq dwq dhq : ℚ)
        (dx dy dw dh : ℤ), dxq = (dx : ℚ) → dyq = (dy : ℚ) → dwq = (dw : ℚ) →
        dhq = (dh : ℚ) → ∀ (easing : ℚ → ℚ),
        (¬ (dx ≤ x ∧ x < dx + dw ∧ dy ≤ y ∧ y < dy + dh) ∨ vy = constF 0) →
        ∀ b : Buffer,
        128 ≤ b ((y * 100 + x) * 4 + 2) ∧ b ((y * 100 + x) * 4 + 2) ≤ 255 →
        128 ≤ addTransformation 100 100 vx vy dir dxq dyq dwq dhq easing b
            ((y * 100 + x) * 4 + 2) ∧
          addTransformation 100 100 vx vy dir dxq dyq dwq dhq easing b
            ((y * 100 + x) * 4 + 2) ≤ 255 := by
      intro vx vy dir dxq dyq dwq dhq dx dy dw dh h1 h2 h3 h4 easing hcs b hb
      have he : addTransformation 100 100 vx vy dir dxq dyq dwq dhq easing b
          ((y * 100 + x) * 4 + 2) = b ((y * 100 + x) * 4 + 2) := by
        refine addT_unchanged 100 100 vx vy dir dxq dyq dwq dhq dx dy dw dh h1 h2 h3 h4
          easing b x y 2 hx0' hxw' hy0' hyh' (by norm_num) (by norm_num) ?_
          (by linarith [hb.1]) hb.2
        rcases hcs with hcs | hcs
        · exact Or.inl hcs
        · exact Or.inr (Or.inl ⟨rfl, hcs⟩)
      rw [he]
      exact hb
    have mstep : ∀ (vx vy : ℚ → ℚ → ℚ → ℚ → ℚ) (dir : String) (dxq dyq dwq dhq : ℚ)
        (dx dy dw dh : ℤ) (h1 : dxq = (dx : ℚ)) (h2 : dyq = (dy : ℚ))
        (h3 : dwq = (dw : ℚ)) (h4 : dhq = (dh : ℚ)) (easing : ℚ → ℚ),
        0 ≤ 127 * vy (x : ℚ) (y : ℚ) (dw : ℚ) (dh : ℚ) * easing (clamp01
          (gradSeg dir (x : ℚ) (y : ℚ) (dx : ℚ) (dy : ℚ) (dw : ℚ) (dh : ℚ))) →
        ∀ b : Buffer,
        128 ≤ b ((y * 100 + x) * 4 + 2) ∧ b ((y * 100 + x) * 4 + 2) ≤ 255 →
        128 ≤ addTransformation 100 100 vx vy dir dxq dyq dwq dhq easing b
            ((y * 100 + x) * 4 + 2) ∧
          addTransformation 100 100 vx vy dir dxq dyq dwq dhq easing b
            ((y * 100 + x) * 4 + 2) ≤ 255 := by
      intro vx vy dir dxq dyq dwq dhq dx dy dw dh h1 h2 h3 h4 easing hvy b hb
      exact addT_c2_mono 100 100 vx vy dir dxq dyq dwq dhq dx dy dw dh h1 h2 h3 h4
        easing b x y hx0' hxw' hy0' hyh' hvy hb.1 hb.2
    have e1 : 128 ≤ addTransformation 100 100 (constF 0) (constF (1 * ((2 : ℚ) / 2)))
        "top" 0 0 ((100 : ℤ) : ℚ) ((10 : ℚ) / 2) pow1 (initData 100 100)
        ((y * 100 + x) * 4 + 2) ∧
        addTransformation 100 100 (constF 0) (constF (1 * ((2 : ℚ) / 2)))
        "top" 0 0 ((100 : ℤ) : ℚ) ((10 : ℚ) / 2) pow1 (initData 100 100)
        ((y * 100 + x) * 4 + 2) ≤ 255 := by
      rw [addTransformation_int_apply' 100 100 (constF 0) (constF (1 * ((2 : ℚ) / 2)))
        "top" 0 0 ((100 : ℤ) : ℚ) ((10 : ℚ) / 2) 0 0 100 5 (by norm_num) (by norm_num)
        (by norm_num) (by norm_num) pow1 (initData 100 100) x y 2 hx0' hxw' hy0' hyh'
        (by norm_num) (by norm_num)]
      rw [if_pos (by omega), if_neg (by norm_num), if_pos rfl]
      have h127 : initData 100 100 ((y * 100 + x) * 4 + 2) = 127 := hpix.2.2.1
      rw [h127, gradSeg_top]
      rw [show constF (1 * ((2 : ℚ) / 2)) (x : ℚ) (y : ℚ) ((100 : ℤ) : ℚ) ((5 : ℤ) : ℚ) = 1
        by rw [constF]; norm_num]
      have hge : (((5 : ℤ) : ℚ) - ((y : ℚ) - ((0 : ℤ) : ℚ))) / ((5 : ℤ) : ℚ)
          = (5 - (y : ℚ)) / 5 := by push_cast; ring
      rw [hge]
      have hg0 : (0 : ℚ) ≤ (5 - (y : ℚ)) / 5 := by
        apply div_nonneg _ (by norm_num)
        linarith
      have hg1 : (5 - (y : ℚ)) / 5 ≤ 1 := by
        rw [div_le_one (by norm_num)]
        linarith
      rw [clamp01_eq_self hg0 hg1]
      rw [show pow1 ((5 - (y : ℚ)) / 5) = (5 - (y : ℚ)) / 5 from pow_one _]
      constructor
      · apply le_clamp255 (by norm_num)
        unfold roundJS
        rw [Int.le_floor]
        push_cast
        linarith
      · exact clamp255_le_255 _
    unfold pixelChan
    simp only [calculateGlassRefractionMap]
    refine mstep _ _ _ _ _ _ _ 90 0 10 100 (by norm_num) (by norm_num) (by norm_num)
      (by norm_num) _ ?hvy8 _
      (mstep _ _ _ _ _ _ _ 0 0 10 100 (by norm_num) (by norm_num) (by norm_num)
        (by norm_num) _ ?hvy7 _
        (sstep _ _ _ _ _ _ _ 0 90 100 10 (by norm_num) (by norm_num) (by norm_num)
          (by norm_num) _ (Or.inr rfl) _
          (sstep _ _ _ _ _ _ _ 0 0 100 10 (by norm_num) (by norm_num) (by norm_num)
            (by norm_num) _ (Or.inr rfl) _
            (sstep _ _ _ _ _ _ _ 95 0 5 100 (by norm_num) (by norm_num) (by norm_num)
              (by norm_num) _ (Or.inr rfl) _
              (sstep _ _ _ _ _ _ _ 0 0 5 100 (by norm_num) (by norm_num) (by norm_num)
                (by norm_num) _ (Or.inr rfl) _
                (sstep _ _ _ _ _ _ _ 0 95 100 5 (by norm_num) (by norm_num) (by norm_num)
                  (by norm_num) _ (Or.inl (by omega)) _ e1))))))
    case hvy8 =>
      refine mul_nonneg (mul_nonneg (by norm_num) ?_) ?_
      · show (0 : ℚ) ≤ -((y : ℚ) - ((100 : ℤ) : ℚ) / 2) / (((100 : ℤ) : ℚ) / 2) *
          ((2 : ℚ) / 2) * (3 / 4)
        push_cast
        refine mul_nonneg (mul_nonneg (div_nonneg (by linarith) (by norm_num))
          (by norm_num)) (by norm_num)
      · show (0 : ℚ) ≤ pow2 _
        unfold pow2
        exact sq_nonneg _
    case hvy7 =>
      refine mul_nonneg (mul_nonneg (by norm_num) ?_) ?_
      · show (0 : ℚ) ≤ -((y : ℚ) - ((100 : ℤ) : ℚ) / 2) / (((100 : ℤ) : ℚ) / 2) *
          ((2 : ℚ) / 2) * (3 / 4)
        push_cast
        refine mul_nonneg (mul_nonneg (div_nonneg (by linarith) (by norm_num))
          (by norm_num)) (by norm_num)
      · show (0 : ℚ) ≤ pow2 _
        unfold pow2
        exact sq_nonneg _
  · -- rows 5–9, central columns: vertical channel still neutral
    intro x y hx1 hx2 hy1 hy2
    have hx0' : (0 : ℤ) ≤ x := by omega
    have hxw' : x < 100 := by omega
    have hy0' : (0 : ℤ) ≤ y := by omega
    have hyh' : y < 100 := by omega
    have hpix := initData_pixel 100 100 (by norm_num) (by norm_num) x y hx0' hxw' hy0' hyh'
    have vstep : ∀ (vx vy : ℚ → ℚ → ℚ → ℚ → ℚ) (dir : String) (dxq dyq dwq dhq : ℚ)
        (dx dy dw dh : ℤ), dxq = (dx : ℚ) → dyq = (dy : ℚ) → dwq = (dw : ℚ) →
        dhq = (dh : ℚ) → ∀ (easing : ℚ → ℚ),
        (¬ (dx ≤ x ∧ x < dx + dw ∧ dy ≤ y ∧ y < dy + dh) ∨ vy = constF 0) →
        ∀ b : Buffer, b ((y * 100 + x) * 4 + 2) = 127 →
        addTransformation 100 100 vx vy dir dxq dyq dwq dhq easing b
          ((y * 100 + x) * 4 + 2) = 127 := by
      intro vx vy dir dxq dyq dwq dhq dx dy dw dh h1 h2 h3 h4 easing hcs b hb
      have he : addTransformation 100 100 vx vy dir dxq dyq dwq dhq easing b
          ((y * 100 + x) * 4 + 2) = b ((y * 100 + x) * 4 + 2) := by
        refine addT_unchanged 100 100 vx vy dir dxq dyq dwq dhq dx dy dw dh h1 h2 h3 h4
          easing b x y 2 hx0' hxw' hy0' hyh' (by norm_num) (by norm_num) ?_
          (by rw [hb]; norm_num) (by rw [hb]; norm_num)
        rcases hcs with hcs | hcs
        · exact Or.inl hcs
        · exact Or.inr (Or.inl ⟨rfl, hcs⟩)
      rw [he, hb]
    unfold pixelChan
    simp only [calculateGlassRefractionMap]
    exact vstep _ _ _ _ _ _ _ 90 0 10 100 (by norm_num) (by norm_num) (by norm_num)
      (by norm_num) _ (Or.inl (by omega)) _
      (vstep _ _ _ _ _ _ _ 0 0 10 100 (by norm_num) (by norm_num) (by norm_num)
        (by norm_num) _ (Or.inl (by omega)) _
        (vstep _ _ _ _ _ _ _ 0 90 100 10 (by norm_num) (by norm_num) (by norm_num)
          (by norm_num) _ (Or.inr rfl) _
          (vstep _ _ _ _ _ _ _ 0 0 100 10 (by norm_num) (by norm_num) (by norm_num)
            (by norm_num) _ (Or.inr rfl) _
            (vstep _ _ _ _ _ _ _ 95 0 5 100 (by norm_num) (by norm_num) (by norm_num)
              (by norm_num) _ (Or.inr rfl) _
              (vstep _ _ _ _ _ _ _ 0 0 5 100 (by norm_num) (by norm_num) (by norm_num)
                (by norm_num) _ (Or.inr rfl) _
                (vstep _ _ _ _ _ _ _ 0 95 100 5 (by norm_num) (by norm_num) (by norm_num)
                  (by norm_num) _ (Or.inl (by omega)) _
                  (vstep _ _ _ _ _ _ _ 0 0 100 5 (by norm_num) (by norm_num) (by norm_num)
                    (by norm_num) _ (Or.inl (by omega)) _ hpix.2.2.1)))))))
  · -- central 80×80: both displacement channels exactly neutral
    intro x y hx1 hx2 hy1 hy2
    have hx0' : (0 : ℤ) ≤ x := by omega
    have hxw' : x < 100 := by omega
    have hy0' : (0 : ℤ) ≤ y := by omega
    have hyh' : y < 100 := by omega
    have hpix := initData_pixel 100 100 (by norm_num) (by norm_num) x y hx0' hxw' hy0' hyh'
    have wstep : ∀ (c : ℤ), 0 ≤ c → c < 4 →
        ∀ (vx vy : ℚ → ℚ → ℚ → ℚ → ℚ) (dir : String) (dxq dyq dwq dhq : ℚ)
        (dx dy dw dh : ℤ), dxq = (dx : ℚ) → dyq = (dy : ℚ) → dwq = (dw : ℚ) →
        dhq = (dh : ℚ) → ∀ (easing : ℚ → ℚ),
        ¬ (dx ≤ x ∧ x < dx + dw ∧ dy ≤ y ∧ y < dy + dh) →
        ∀ b : Buffer, b ((y * 100 + x) * 4 + c) = 127 →
        addTransformation 100 100 vx vy dir dxq dyq dwq dhq easing b
          ((y * 100 + x) * 4 + c) = 127 := by
      intro c hcc0 hcc4 vx vy dir dxq dyq dwq dhq dx dy dw dh h1 h2 h3 h4 easing hout b hb
      have he : addTransformation 100 100 vx vy dir dxq dyq dwq dhq easing b
          ((y * 100 + x) * 4 + c) = b ((y * 100 + x) * 4 + c) :=
        addT_unchanged 100 100 vx vy dir dxq dyq dwq dhq dx dy dw dh h1 h2 h3 h4
          easing b x y c hx0' hxw' hy0' hyh' hcc0 hcc4 (Or.inl hout)
          (by rw [hb]; norm_num) (by rw [hb]; norm_num)
      rw [he, hb]
    constructor
    · unfold pixelChan
      simp only [calculateGlassRefractionMap]
      exact wstep 0 (by norm_num) (by norm_num) _ _ _ _ _ _ _ 90 0 10 100 (by norm_num)
        (by norm_num) (by norm_num) (by norm_num) _ (by omega) _
        (wstep 0 (by norm_num) (by norm_num) _ _ _ _ _ _ _ 0 0 10 100 (by norm_num)
          (by norm_num) (by norm_num) (by norm_num) _ (by omega) _
          (wstep 0 (by norm_num) (by norm_num) _ _ _ _ _ _ _ 0 90 100 10 (by norm_num)
            (by norm_num) (by norm_num) (by norm_num) _ (by omega) _
            (wstep 0 (by norm_num) (by norm_num) _ _ _ _ _ _ _ 0 0 100 10 (by norm_num)
              (by norm_num) (by norm_num) (by norm_num) _ (by omega) _
              (wstep 0 (by norm_num) (by norm_num) _ _ _ _ _ _ _ 95 0 5 100 (by norm_num)
                (by norm_num) (by norm_num) (by norm_num) _ (by omega) _
                (wstep 0 (by norm_num) (by norm_num) _ _ _ _ _ _ _ 0 0 5 100 (by norm_num)
                  (by norm_num) (by norm_num) (by norm_num) _ (by omega) _
                  (wstep 0 (by norm_num) (by norm_num) _ _ _ _ _ _ _ 0 95 100 5
                    (by norm_num) (by norm_num) (by norm_num) (by norm_num) _ (by omega) _
                    (wstep 0 (by norm_num) (by norm_num) _ _ _ _ _ _ _ 0 0 100 5
                      (by norm_num) (by norm_num) (by norm_num) (by norm_num) _
                      (by omega) _ hpix.1)))))))
    · unfold pixelChan
      simp only [calculateGlassRefractionMap]
      exact wstep 2 (by norm_num) (by norm_num) _ _ _ _ _ _ _ 90 0 10 100 (by norm_num)
        (by norm_num) (by norm_num) (by norm_num) _ (by omega) _
        (wstep 2 (by norm_num) (by norm_num) _ _ _ _ _ _ _ 0 0 10 100 (by norm_num)
          (by norm_num) (by norm_num) (by norm_num) _ (by omega) _
          (wstep 2 (by norm_num) (by norm_num) _ _ _ _ _ _ _ 0 90 100 10 (by norm_num)
            (by norm_num) (by norm_num) (by norm_num) _ (by omega) _
            (wstep 2 (by norm_num) (by norm_num) _ _ _ _ _ _ _ 0 0 100 10 (by norm_num)
              (by norm_num) (by norm_num) (by norm_num) _ (by omega) _
              (wstep 2 (by norm_num) (by norm_num) _ _ _ _ _ _ _ 95 0 5 100 (by norm_num)
                (by norm_num) (by norm_num) (by norm_num) _ (by omega) _
                (wstep 2 (by norm_num) (by norm_num) _ _ _ _ _ _ _ 0 0 5 100 (by norm_num)
                  (by norm_num) (by norm_num) (by norm_num) _ (by omega) _
                  (wstep 2 (by norm_num) (by norm_num) _ _ _ _ _ _ _ 0 95 100 5
                    (by norm_num) (by norm_num) (by norm_num) (by norm_num) _ (by omega) _
                    (wstep 2 (by norm_num) (by norm_num) _ _ _ _ _ _ _ 0 0 100 5
                      (by norm_num) (by norm_num) (by norm_num) (by norm_num) _
                      (by omega) _ hpix.2.2.1)))))))

/-- C3 witness: pixel (0, 0) is displaced upward-positive; pixel (50, 50) is
exactly neutral. -/
theorem glassMap_scenario_witness :
    128 ≤ pixelChan (calculateGlassRefractionMap 2 10 100 100 0) 100 0 0 2 ∧
    pixelChan (calculateGlassRefractionMap 2 10 100 100 0) 100 50 50 0 = 127 :=
  ⟨(glassMap_scenario.1 0 0 (by norm_num) (by norm_num) (by norm_num) (by norm_num)).1,
   (glassMap_scenario.2.2 50 50 (by norm_num) (by norm_num) (by norm_num)
     (by norm_num)).1⟩

/-- C3 counterexample: pixel (50, 7) lies within 10 px of the top edge, yet
its vertical displacement channel still holds the exact neutral value 127:
the primary top strip of `synthesize(2.0, 10, 100, 100, 0)` is only
`offset / 2 = 5` pixels thick, so the claim's "every pixel within 10px of the
top edge is non-neutral" fails. -/
theorem glassMap_top_strip_neutral_pixel :
    pixelChan (calculateGlassRefractionMap 2 10 100 100 0) 100 50 7 2 = 127 := by
  have hpix := initData_pixel 100 100 (by norm_num) (by norm_num) 50 7 (by norm_num)
    (by norm_num) (by norm_num) (by norm_num)
  have vstep : ∀ (vx vy : ℚ → ℚ → ℚ → ℚ → ℚ) (dir : String) (dxq dyq dwq dhq : ℚ)
      (dx dy dw dh : ℤ), dxq = (dx : ℚ) → dyq = (dy : ℚ) → dwq = (dw : ℚ) →
      dhq = (dh : ℚ) → ∀ (easing : ℚ → ℚ),
      (¬ (dx ≤ 50 ∧ 50 < dx + dw ∧ dy ≤ 7 ∧ 7 < dy + dh) ∨ vy = constF 0) →
      ∀ b : Buffer, b (((7 : ℤ) * 100 + 50) * 4 + 2) = 127 →
      addTransformation 100 100 vx vy dir dxq dyq dwq dhq easing b
        (((7 : ℤ) * 100 + 50) * 4 + 2) = 127 := by
    intro vx vy dir dxq dyq dwq dhq dx dy dw dh h1 h2 h3 h4 easing hcs b hb
    have he : addTransformation 100 100 vx vy dir dxq dyq dwq dhq easing b
        (((7 : ℤ) * 100 + 50) * 4 + 2) = b (((7 : ℤ) * 100 + 50) * 4 + 2) := by
      refine addT_unchanged 100 100 vx vy dir dxq dyq dwq dhq dx dy dw dh h1 h2 h3 h4
        easing b 50 7 2 (by norm_num) (by norm_num) (by norm_num) (by norm_num)
        (by norm_num) (by norm_num) ?_ (by rw [hb]; norm_num) (by rw [hb]; norm_num)
      rcases hcs with hcs | hcs
      · exact Or.inl hcs
      · exact Or.inr (Or.inl ⟨rfl, hcs⟩)
    rw [he, hb]
  unfold pixelChan
  simp only [calculateGlassRefractionMap]
  exact vstep _ _ _ _ _ _ _ 90 0 10 100 (by norm_num) (by norm_num) (by norm_num)
    (by norm_num) _ (Or.inl (by omega)) _
    (vstep _ _ _ _ _ _ _ 0 0 10 100 (by norm_num) (by norm_num) (by norm_num)
      (by norm_num) _ (Or.inl (by omega)) _
      (vstep _ _ _ _ _ _ _ 0 90 100 10 (by norm_num) (by norm_num) (by norm_num)
        (by norm_num) _ (Or.inr rfl) _
        (vstep _ _ _ _ _ _ _ 0 0 100 10 (by norm_num) (by norm_num) (by norm_num)
          (by norm_num) _ (Or.inr rfl) _
          (vstep _ _ _ _ _ _ _ 95 0 5 100 (by norm_num) (by norm_num) (by norm_num)
            (by norm_num) _ (Or.inr rfl) _
            (vstep _ _ _ _ _ _ _ 0 0 5 100 (by norm_num) (by norm_num) (by norm_num)
              (by norm_num) _ (Or.inr rfl) _
              (vstep _ _ _ _ _ _ _ 0 95 100 5 (by norm_num) (by norm_num) (by norm_num)
                (by norm_num) _ (Or.inl (by omega)) _
                (vstep _ _ _ _ _ _ _ 0 0 100 5 (by norm_num) (by norm_num) (by norm_num)
                  (by norm_num) _ (Or.inl (by omega)) _ hpix.2.2.1)))))))

end Variablur


